import Mathlib

/-!
Verification development for the CIBIL OCR report parser
(`cibil_parser_v2.py`) and its FastAPI persistence layer (`main.py`).

The Python source works on OCR text via `re` patterns.  Here every pattern
that the verified claims depend on is translated into an executable
character-level matcher with the same backtracking semantics (leftmost
search, greedy / lazy quantifiers, alternation tried left to right).
Strings are Lean `String`s; matchers recurse over `String.data`.
Python exceptions are modelled with `Except Unit`; Python `None` with
`Option`; Python `float` values with `ℚ` (every numeric literal the
parser can produce is decimal, so rationals model the parse exactly;
claims about values never rely on binary rounding).
-/

/-! ## Python primitives -/

/-- Decidable equality for `Except`, needed to settle concrete runs by
computation. -/
instance {e a : Type} [DecidableEq e] [DecidableEq a] : DecidableEq (Except e a) := fun x y =>
  match x, y with
  | .ok u, .ok v =>
    if h : u = v then isTrue (by rw [h]) else isFalse (by simp [h])
  | .error u, .error v =>
    if h : u = v then isTrue (by rw [h]) else isFalse (by simp [h])
  | .ok _, .error _ => isFalse (by simp)
  | .error _, .ok _ => isFalse (by simp)



/-- Python whitespace class `\s` (ASCII range, which is all the OCR text
uses): space, tab, newline, carriage return, vertical tab, form feed. -/
def pyIsSpace (c : Char) : Bool :=
  c = ' ' || c = '\t' || c = '\n' || c = '\x0d' || c = '\x0b' || c = '\x0c'

/-- ASCII lower-casing, used to model `re.IGNORECASE` and `str.lower()`. -/
def lowerC (c : Char) : Char := c.toLower

/-- Case-insensitive character equality (ASCII). -/
def eqCI (a b : Char) : Bool := lowerC a = lowerC b

/-- Python `str.strip()` on a character list: drop whitespace from both ends. -/
def pyStripL (l : List Char) : List Char :=
  ((l.dropWhile pyIsSpace).reverse.dropWhile pyIsSpace).reverse

/-- Python `str.strip()`. -/
def pyStrip (s : String) : String := ⟨pyStripL s.data⟩

/-- Match a literal character list case-insensitively at the head of the
input, returning the remaining input.  Models a literal inside a pattern
compiled with `re.IGNORECASE`. -/
def dropLitCI : List Char → List Char → Option (List Char)
  | [], s => some s
  | _ :: _, [] => none
  | p :: ps, c :: cs => if eqCI p c then dropLitCI ps cs else none

/-- Match a literal character list case-sensitively at the head of the input. -/
def dropLit : List Char → List Char → Option (List Char)
  | [], s => some s
  | _ :: _, [] => none
  | p :: ps, c :: cs => if p = c then dropLit ps cs else none

/-- Case-sensitive substring test: Python `needle in haystack`. -/
def containsSub (needle : String) : List Char → Bool
  | [] => needle.data.isEmpty
  | c :: cs => (dropLit needle.data (c :: cs)).isSome || containsSub needle cs

/-- Python `needle in haystack` on strings. -/
def pyIn (needle haystack : String) : Bool := containsSub needle haystack.data

/-- Leftmost search: try the matcher at every suffix of the input, in
order.  Models `re.search` for a pattern whose translation is `attempt`. -/
def searchFrom (attempt : List Char → Option α) : List Char → Option α
  | [] => attempt []
  | c :: cs =>
    match attempt (c :: cs) with
    | some r => some r
    | none => searchFrom attempt cs

/-- Non-overlapping scan: Python `re.findall`.  `attempt` returns the
captured value and the input remaining after the whole match; an empty
match advances by one character like CPython does.  The scan shortens
the input at every step, so `fuel = length + 1` (as supplied by
`findAllFrom`) always suffices; the fuel only makes the recursion
structural. -/
def findAllFromF (attempt : List Char → Option (α × List Char)) :
    Nat → List Char → List α
  | 0, _ => []
  | _ + 1, [] => (match attempt [] with | some (a, _) => [a] | none => [])
  | fuel + 1, c :: cs =>
    match attempt (c :: cs) with
    | some (a, rest) =>
      if rest.length < (c :: cs).length then a :: findAllFromF attempt fuel rest
      else a :: findAllFromF attempt fuel cs
    | none => findAllFromF attempt fuel cs

/-- Python `re.findall` over the whole input. -/
def findAllFrom (attempt : List Char → Option (α × List Char))
    (l : List Char) : List α :=
  findAllFromF attempt (l.length + 1) l

/-- Greedy `\s*` followed by more pattern: consume whitespace greedily,
backtracking one character at a time into the continuation `k`.
`k` receives the input remaining after the whitespace run. -/
def wsStarK (k : List Char → Option α) : List Char → Option α
  | [] => k []
  | c :: cs =>
    if pyIsSpace c then
      match wsStarK k cs with
      | some r => some r
      | none => k (c :: cs)
    else k (c :: cs)

/-- Greedy `\s+` followed by continuation `k`: at least one whitespace
character, then as in `wsStarK`. -/
def wsPlusK (k : List Char → Option α) : List Char → Option α
  | [] => none
  | c :: cs => if pyIsSpace c then wsStarK k cs else none

/-- Greedy run of a character class followed by continuation `k`
(pattern `cls*`), with full backtracking. -/
def clsStarK (cls : Char → Bool) (k : List Char → Option α) :
    List Char → Option α
  | [] => k []
  | c :: cs =>
    if cls c then
      match clsStarK cls k cs with
      | some r => some r
      | none => k (c :: cs)
    else k (c :: cs)

/-- Greedy `cls+` followed by continuation `k`. -/
def clsPlusK (cls : Char → Bool) (k : List Char → Option α) :
    List Char → Option α
  | [] => none
  | c :: cs => if cls c then clsStarK cls k cs else none

/-- Take exactly `n` characters of class `cls` (pattern `cls{n}`),
returning the captured run and the rest. -/
def grabExact (cls : Char → Bool) : Nat → List Char → Option (List Char × List Char)
  | 0, s => some ([], s)
  | _ + 1, [] => none
  | n + 1, c :: cs =>
    if cls c then
      match grabExact cls n cs with
      | some (run, rest) => some (c :: run, rest)
      | none => none
    else none

/-- Characters of the current line: everything up to the next newline. -/
def restOfLine (l : List Char) : List Char := l.takeWhile (· ≠ '\n')

/-- Capture group `([^\n]+)` at the current position: the rest of the
line, required to be non-empty. -/
def captureLine (l : List Char) : Option (List Char) :=
  let cap := restOfLine l
  if cap.isEmpty then none else some cap

/-! ## Normalizers (`norm_date`, `norm_float`) -/

/-- Python `int()` of a non-empty digit string, as used on regex captures
that are guaranteed by their pattern to be plain digit runs. -/
def intOfDigits (l : List Char) : Nat :=
  l.foldl (fun n c => n * 10 + (c.toNat - 48)) 0

/-- Python `f"{n:02d}"`: decimal rendering zero-padded to two characters. -/
def pyFmt02 (n : Nat) : String :=
  if n < 10 then "0" ++ Nat.repr n else Nat.repr n

/-- Separator class `[/\-\.]` of the date pattern in `norm_date`. -/
def dateSep (c : Char) : Bool := c = '/' || c = '-' || c = '.'

/-- Pattern `\d{1,2}` with regex backtracking: try two digits first,
then one, handing the captured run and the rest to the continuation. -/
def grab12 (s : List Char) (k : List Char → List Char → Option α) : Option α :=
  match s with
  | [] => none
  | [a] => if a.isDigit then k [a] [] else none
  | a :: b :: t =>
    if a.isDigit then
      if b.isDigit then
        match k [a, b] t with
        | some r => some r
        | none => k [a] (b :: t)
      else k [a] (b :: t)
    else none

/-- Anchored match of `(\d{1,2})[/\-\.](\d{1,2})[/\-\.](\d{4})` (the
`re.match` in `norm_date`), returning the three captured groups.  Any
trailing input is allowed, as in the unanchored tail of `re.match`. -/
def matchDMY (s : List Char) : Option (List Char × List Char × List Char) :=
  grab12 s fun d s1 =>
    match s1 with
    | [] => none
    | c1 :: t1 =>
      if dateSep c1 then
        grab12 t1 fun m s2 =>
          match s2 with
          | [] => none
          | c2 :: t2 =>
            if dateSep c2 then
              match grabExact Char.isDigit 4 t2 with
              | some (y, _) => some (d, m, y)
              | none => none
            else none
      else none

/-- Translation of `norm_date` (`cibil_parser_v2.py:37`): `None` and
placeholder inputs give `none`; a `D/M/YYYY`-shaped prefix (separators
`/`, `-` or `.`) is reordered to `YYYY-MM-DD` with day and month
zero-padded via `:02d`; anything else gives `none`. -/
def norm_date (raw : Option String) : Option String :=
  match raw with
  | none => none
  | some r =>
    if r = "" || pyStrip r = "-" || pyStrip r = "" || pyStrip r = "None" then
      none
    else
      match matchDMY (pyStrip r).data with
      | some (d, m, y) =>
        some (⟨y⟩ ++ "-" ++ pyFmt02 (intOfDigits m) ++ "-" ++ pyFmt02 (intOfDigits d))
      | none => none

/-- Characters kept by `re.sub(r"[^\d.]", "", s)` in `norm_float`. -/
def keepDigitDot (c : Char) : Bool := c.isDigit || c = '.'

/-- Model of Python `float()` on an arbitrary string: optional
whitespace, optional sign, a mantissa of digits with at most one dot
and at least one digit, and an optional exponent.  `none` models a
`ValueError`.  (Digit-group underscores and the `inf`/`nan` literals
are not modelled; no call site in this code base can reach them, since
every argument is either digits-and-dots or starts with a digit.) -/
def pyFloatSign (l : List Char) : ℚ × List Char :=
  if l.headD ' ' = '-' then (-1, l.tail)
  else if l.headD ' ' = '+' then (1, l.tail)
  else (1, l)

/-- Mantissa stage of the Python `float()` grammar: leading digits, an
optional dot with further digits; at least one digit in total.  Returns
the mantissa value and the unconsumed input. -/
def pyFloatMant (l : List Char) : Option (ℚ × List Char) :=
  let intPart := l.takeWhile Char.isDigit
  let l2 := l.dropWhile Char.isDigit
  let fracPart := if l2.headD ' ' = '.' then l2.tail.takeWhile Char.isDigit else []
  let l3 := if l2.headD ' ' = '.' then l2.tail.dropWhile Char.isDigit else l2
  if intPart.isEmpty && fracPart.isEmpty then none
  else
    some ((intOfDigits intPart : ℚ) + (intOfDigits fracPart : ℚ) / (10 : ℚ) ^ fracPart.length, l3)

/-- Sign stage for the exponent (an integer sign). -/
def pyFloatSignInt (l : List Char) : Int × List Char :=
  if l.headD ' ' = '-' then (-1, l.tail)
  else if l.headD ' ' = '+' then (1, l.tail)
  else (1, l)

/-- Model of Python `float()` on an arbitrary string: optional
whitespace, optional sign, a mantissa of digits with at most one dot
and at least one digit, and an optional exponent.  `none` models a
`ValueError`.  (Digit-group underscores and the `inf`/`nan` literals
are not modelled; no call site in this code base can reach them, since
every argument is either digits-and-dots or starts with a digit.) -/
def pyFloat (s : String) : Option ℚ :=
  let l0 := pyStripL s.data
  let sl := pyFloatSign l0
  match pyFloatMant sl.2 with
  | none => none
  | some (mant, l3) =>
    if l3.isEmpty then some (sl.1 * mant)
    else if l3.headD ' ' = 'e' || l3.headD ' ' = 'E' then
      let es := pyFloatSignInt l3.tail
      let eDigits := es.2.takeWhile Char.isDigit
      let t2 := es.2.dropWhile Char.isDigit
      if eDigits.isEmpty || !t2.isEmpty then none
      else some (sl.1 * mant * (10 : ℚ) ^ (es.1 * (intOfDigits eDigits : Int)))
    else none

/-- Translation of `norm_float` (`cibil_parser_v2.py:46`): strip every
character that is not a digit or a dot, then Python `float()` of the
remainder if it is non-empty, else `None`.  A `ValueError` raised by
`float()` propagates; it is modelled as `.error ()`. -/
def norm_float (raw : Option String) : Except Unit (Option ℚ) :=
  match raw with
  | none => .ok none
  | some r =>
    let s : List Char := r.data.filter keepDigitDot
    if s.isEmpty then .ok none
    else
      match pyFloat ⟨s⟩ with
      | some q => .ok (some q)
      | none => .error ()

/-! ## Field extraction (`find` of `cibil_parser_v2.py:52` specialised
to the patterns the account parser uses) -/

/-- Pattern fragment `\s*\n` followed by continuation `k`: greedy
whitespace, backtracking so that the literal newline can be taken from
inside the whitespace run (CPython backtracks to the last newline of the
run first). -/
def wsThenNlK (k : List Char → Option α) : List Char → Option α
  | [] => none
  | c :: cs =>
    if pyIsSpace c then
      match wsThenNlK k cs with
      | some r => some r
      | none => if c = '\n' then k cs else none
    else none

/-- Search for `{label}` case-insensitively followed by the pattern
continuation `k`; on a match return the captured characters stripped,
as `find` does (`m.group(1).strip()`). -/
def findCapCI (label : String) (k : List Char → Option (List Char))
    (s : String) : Option String :=
  (searchFrom (fun l => (dropLitCI label.data l).bind k) s.data).map
    (fun cap => pyStrip ⟨cap⟩)

/-- Pattern `{label}\s*\n([^\n]+)` under `find`: label, whitespace run
holding a newline, then the next line as capture. -/
def findLabelNL (label : String) (s : String) : Option String :=
  findCapCI label (wsThenNlK captureLine) s

/-- Pattern `{label}\s+([^\n]+)` under `find`: label, at least one
whitespace character (which may include newlines), then a non-empty
run of non-newline characters as capture. -/
def findLabelSame (label : String) (s : String) : Option String :=
  findCapCI label (wsPlusK captureLine) s

/-- Pattern `{label}\s*\n({cls}+)` under `find`, for the label patterns
whose capture is a restricted character class (dates, amounts). -/
def findLabelNLCls (label : String) (cls : Char → Bool) (s : String) :
    Option String :=
  findCapCI label
    (wsThenNlK (fun t =>
      let cap := t.takeWhile cls
      if cap.isEmpty then none else some cap)) s

/-- Helper `get(label)` of `parse_single_account`
(`cibil_parser_v2.py:256`): try `label` followed by a value on the same
line, then on the next line; accept the first result that is not empty
and not a placeholder (`-`, `None`). -/
def getField (label : String) (chunk : String) : Option String :=
  let ok : String → Bool := fun v => !(v = "-" || v = "" || v = "None")
  match findLabelSame label chunk with
  | some v =>
    if ok v then some v
    else
      match findLabelNL label chunk with
      | some w => if ok w then some w else none
      | none => none
  | none =>
    match findLabelNL label chunk with
    | some w => if ok w then some w else none
    | none => none

/-- Test for `re.search(r"\d", v)`: the string contains a digit. -/
def containsDigitStr (v : String) : Bool := v.data.any Char.isDigit

/-- Noise test on an extracted account number
(`cibil_parser_v2.py:272`): `re.search(r"[a-z]{3,}|Ownership", v,
re.IGNORECASE)` — three or more consecutive letters (the IGNORECASE flag
makes `[a-z]` match both cases) or the word `Ownership` in any casing. -/
def searchNoise (v : String) : Bool :=
  (searchFrom (fun l =>
    match grabExact Char.isAlpha 3 l with
    | some _ => some ()
    | none => (dropLitCI "Ownership".data l).map (fun _ => ())) v.data).isSome

/-- Account-number cleaning step of `parse_single_account`
(`cibil_parser_v2.py:271-273`): drop the value if the noise pattern
matches, keep it unchanged otherwise. -/
def cleanAcctNum (acctNum : Option String) : Option String :=
  match acctNum with
  | none => none
  | some v => if v ≠ "" && searchNoise v then none else some v

/-- Python truthiness of an optional string: `None` and `""` are falsy. -/
def pyTruthyStr (o : Option String) : Bool :=
  match o with
  | none => false
  | some s => s ≠ ""

/-! ## Payment history (`parse_payment_history`, `cibil_parser_v2.py:221`) -/

/-- Month abbreviations of `MONTH_MAP` with their two-digit numbers. -/
def monthMap : List (String × String) :=
  [("Jan", "01"), ("Feb", "02"), ("Mar", "03"), ("Apr", "04"),
   ("May", "05"), ("Jun", "06"), ("Jul", "07"), ("Aug", "08"),
   ("Sep", "09"), ("Oct", "10"), ("Nov", "11"), ("Dec", "12")]

/-- Alternation `(Jan|Feb|...|Dec)` (case-sensitive, as the payment
history patterns carry no flags): try each abbreviation in order,
returning the matched name and the rest of the input. -/
def tryMonth (l : List Char) : Option (String × List Char) :=
  monthMap.foldr
    (fun (p : String × String) acc =>
      match dropLit p.fst.data l with
      | some rest => some (p.fst, rest)
      | none => acc)
    none

/-- Lookup `MONTH_MAP[mon]`.  The default branch is unreachable: `mon`
is always one of the twelve alternation branches. -/
def monthNum (mon : String) : String :=
  match monthMap.find? (fun p => p.fst = mon) with
  | some p => p.snd
  | none => ""

/-- One match of `(Jan|...|Dec)\s+(\d{4})`: month alternation,
whitespace, four digits; yields both captures and the rest of the
input after the match. -/
def monthYearAt (l : List Char) : Option ((String × String) × List Char) :=
  (tryMonth l).bind fun (mon, r) =>
    wsPlusK (fun t =>
      (grabExact Char.isDigit 4 t).map fun (y, rest) => ((mon, (⟨y⟩ : String)), rest)) r

/-- Delinquency token alternation `(STD|XXX|SMA|\d+|0)`, tried left to
right; `\d+` is a greedy digit run (which subsumes the final `0`). -/
def tokenAt (l : List Char) : Option (String × List Char) :=
  match dropLit "STD".data l with
  | some r => some ("STD", r)
  | none =>
    match dropLit "XXX".data l with
    | some r => some ("XXX", r)
    | none =>
      match dropLit "SMA".data l with
      | some r => some ("SMA", r)
      | none =>
        let ds := l.takeWhile Char.isDigit
        if ds.isEmpty then none else some (⟨ds⟩, l.drop ds.length)

/-- One match of `(?:Jan|...|Dec)\s+\d{4}\s*(STD|XXX|SMA|\d+|0)?`: the
optional group yields `""` when absent, exactly as `re.findall` reports
a non-participating group. -/
def monthTokenAt (l : List Char) : Option (String × List Char) :=
  (tryMonth l).bind fun (_, r) =>
    wsPlusK (fun t =>
      (grabExact Char.isDigit 4 t).bind fun (_, rest) =>
        wsStarK (fun t2 =>
          match tokenAt t2 with
          | some (tok, r2) => some (tok, r2)
          | none => some ("", t2)) rest) r

/-- Python `int()` restricted to the delinquency-token alphabet
(`STD|XXX|SMA|\d+` and `""`): whitespace-stripped optional sign followed
by a non-empty digit run.  On that alphabet this is exactly `int()`;
tokens that are not digit runs raise `ValueError`, modelled as `none`. -/
def pyIntToken (s : String) : Option Int :=
  let l0 := pyStripL s.data
  let sgn : Int := if l0.headD ' ' = '-' then -1 else 1
  let l := if l0.headD ' ' = '+' || l0.headD ' ' = '-' then l0.tail else l0
  if l.isEmpty || !l.all Char.isDigit then none
  else some (sgn * (intOfDigits l : Int))

/-- Token-to-DPD mapping of `parse_payment_history`
(`cibil_parser_v2.py:236-245`): absent (`None`), `STD`, `""` and `0`
give 0; `XXX` gives `None`; any other token is `int()`-parsed with
`ValueError` degrading to 0. -/
def dpdOfToken (raw : Option String) : Option Int :=
  match raw with
  | none => some 0
  | some t =>
    if t = "STD" || t = "" || t = "0" then some 0
    else if t = "XXX" then none
    else
      match pyIntToken t with
      | some n => some n
      | none => some 0

/-- One month of payment history: normalized `YYYY-MM` month key and an
optional DPD value (`None` models redacted `XXX`). -/
structure PaymentEntry where
  month : String
  dpd : Option Int
  deriving Repr, DecidableEq

/-- Translation of `parse_payment_history` (`cibil_parser_v2.py:221`):
scan the chunk for month-year occurrences and, independently, for
month-year-token occurrences; pair them positionally, excess months
getting an absent token. -/
def pairHistory (dpdTokens : List String) : Nat → List (String × String) → List PaymentEntry
  | _, [] => []
  | i, p :: rest =>
    { month := p.snd ++ "-" ++ monthNum p.fst
      dpd := dpdOfToken (dpdTokens.get? i) } :: pairHistory dpdTokens (i + 1) rest

def parse_payment_history (chunk : String) : List PaymentEntry :=
  let months := findAllFrom monthYearAt chunk.data
  let dpdTokens := findAllFrom monthTokenAt chunk.data
  pairHistory dpdTokens 0 months

/-! ## Single account (`parse_single_account`, `cibil_parser_v2.py:253`) -/

/-- The `account_details` sub-record of a parsed account. -/
structure AccountDetails where
  credit_limit : Option ℚ
  high_credit : Option ℚ
  sanctioned_amount : Option ℚ
  current_balance : Option ℚ
  cash_limit : Option ℚ
  amount_overdue : Option ℚ
  rate_of_interest : Option ℚ
  repayment_tenure : Option Int
  emi_amount : Option ℚ
  payment_frequency : Option String
  date_opened : Option String
  date_closed : Option String
  date_last_payment : Option String
  written_off_amount : Option ℚ
  settlement_amount : Option ℚ
  suit_filed_flag : Bool
  deriving Repr, DecidableEq

/-- A parsed account record. -/
structure AccountRecord where
  member_name : Option String
  account_type : Option String
  ownership : Option String
  account_number_masked : Option String
  account_details : AccountDetails
  payment_history : List PaymentEntry
  deriving Repr, DecidableEq

/-- Helper `money(label)` (`cibil_parser_v2.py:280`): `norm_float` of the
field value when it exists and contains a digit, else `None`.  An
exception from `norm_float` propagates. -/
def moneyField (label : String) (chunk : String) : Except Unit (Option ℚ) :=
  match getField label chunk with
  | some v => if containsDigitStr v then norm_float (some v) else .ok none
  | none => .ok none

/-- Rate of interest (`cibil_parser_v2.py:284-285`): strip `%` (Python
`str.replace` removes every occurrence) before `norm_float`. -/
def roiField (chunk : String) : Except Unit (Option ℚ) :=
  match getField "Rate of Interest" chunk with
  | some r => norm_float (some ⟨r.data.filter (· ≠ '%')⟩)
  | none => .ok none

/-- Repayment tenure (`cibil_parser_v2.py:287-288`):
`int(float(raw))` when the raw value starts with a digit, else `None`.
`float()` may raise on a digit-led but malformed value (for example
`"12 months"`).  The value is non-negative here (it starts with a
digit), so `int()` truncation equals the floor. -/
def tenureField (chunk : String) : Except Unit (Option Int) :=
  match getField "Repayment Tenure" chunk with
  | some t =>
    if (t.data.headD ' ').isDigit then
      match pyFloat t with
      | some q => .ok (some ⌊q⌋)
      | none => .error ()
    else .ok none
  | none => .ok none

/-- Written-off / settlement amount (`cibil_parser_v2.py:293-297`):
`norm_float` when the value exists and holds a digit, otherwise the
zero default — these two fields default to `0`, not `None`. -/
def zeroDefaultField (label : String) (chunk : String) : Except Unit (Option ℚ) :=
  match getField label chunk with
  | some v => if containsDigitStr v then norm_float (some v) else .ok (some 0)
  | none => .ok (some 0)

/-- Translation of `parse_single_account` (`cibil_parser_v2.py:253`). -/
def parse_single_account (chunk : String) : Except Unit AccountRecord := do
  let member := findLabelNL "Member Name" chunk
  let acctType := findLabelNL "Account Type" chunk
  let ownership := findLabelNL "Ownership" chunk
  let acctNum := cleanAcctNum (findLabelNL "Account Number" chunk)
  let dateOpened := norm_date (getField "Date Opened / Disbursed" chunk)
  let dateClosed := norm_date (getField "Date Closed" chunk)
  let lastPayment := norm_date (getField "Date of Last Payment" chunk)
  let creditLimit ← moneyField "Credit Limit" chunk
  let highCredit ← moneyField "High Credit" chunk
  let sanctioned ← moneyField "Sanctioned Amount" chunk
  let currentBalance ← moneyField "Current Balance" chunk
  let cashLimit ← moneyField "Cash Limit" chunk
  let amountOverdue ← moneyField "Amount Overdue" chunk
  let roi ← roiField chunk
  let tenure ← tenureField chunk
  let emi ← moneyField "EMI Amount" chunk
  let suitRaw := getField "Suit - Filed / Wilful Default" chunk
  let suitFlag :=
    match suitRaw with
    | some v => !(v = "-" || v = "None" || v = "")
    | none => false
  let writtenOff ← zeroDefaultField "Written-off Amount (Total)" chunk
  let settlement ← zeroDefaultField "Settlement Amount" chunk
  .ok
    { member_name := member
      account_type := acctType
      ownership := ownership
      account_number_masked := acctNum
      account_details :=
        { credit_limit := creditLimit
          high_credit := highCredit
          sanctioned_amount := sanctioned
          current_balance := currentBalance
          cash_limit := cashLimit
          amount_overdue := amountOverdue
          rate_of_interest := roi
          repayment_tenure := tenure
          emi_amount := emi
          payment_frequency := getField "Payment Frequency" chunk
          date_opened := dateOpened
          date_closed := dateClosed
          date_last_payment := lastPayment
          written_off_amount := writtenOff
          settlement_amount := settlement
          suit_filed_flag := suitFlag }
      payment_history := parse_payment_history chunk }

/-! ## Account section (`parse_accounts`, `cibil_parser_v2.py:330`) -/

/-- Lookahead `(?=ENQUIRY DETAILS|End of report|$)` of the accounts
section pattern; `$` without `re.MULTILINE` holds at the end of the
text or just before a final newline. -/
def accSectionStop (l : List Char) : Bool :=
  (dropLitCI "ENQUIRY DETAILS".data l).isSome ||
  (dropLitCI "End of report".data l).isSome ||
  l = [] || l = ['\n']

/-- Lazy capture `([\s\S]+?)` up to a stop lookahead: at least one
character, extended one character at a time until the lookahead holds. -/
def lazyCapUntil (stop : List Char → Bool) : List Char → Option (List Char)
  | [] => none
  | c :: cs =>
    if stop cs then some [c]
    else
      match lazyCapUntil stop cs with
      | some cap => some (c :: cap)
      | none => none

/-- Accounts section of the concatenated page text:
`find(r"ALL ACCOUNTS([\s\S]+?)(?=ENQUIRY DETAILS|End of report|$)") or ""`. -/
def accSectionOf (fullText : String) : String :=
  match searchFrom (fun l => (dropLitCI "ALL ACCOUNTS".data l).bind (lazyCapUntil accSectionStop)) fullText.data with
  | some cap => pyStrip ⟨cap⟩
  | none => ""

/-- Zero-width boundary of `re.split(r"(?=Member Name\s*\n)", s)`
(case-sensitive: `re.split` here carries no flags): the literal
`Member Name` followed by a whitespace run containing a newline. -/
def memberBoundary (l : List Char) : Bool :=
  match dropLit "Member Name".data l with
  | some rest => (rest.takeWhile pyIsSpace).contains '\n'
  | none => false

/-- Indices of every boundary position in the text. -/
def boundaryPositions : List Char → Nat → List Nat
  | [], _ => []
  | c :: cs, i =>
    (if memberBoundary (c :: cs) then [i] else []) ++ boundaryPositions cs (i + 1)

/-- Split a string at a list of (increasing) positions, keeping every
piece — the semantics of `re.split` on zero-width matches. -/
def splitAtPositions (l : List Char) (prev : Nat) : List Nat → List String
  | [] => [⟨l.drop prev⟩]
  | p :: ps => ⟨(l.take p).drop prev⟩ :: splitAtPositions l p ps

/-- Chunk split of the accounts section
(`re.split(r"(?=Member Name\s*\n)", acc_section)`). -/
def memberSplit (s : String) : List String :=
  splitAtPositions s.data 0 (boundaryPositions s.data 0)

/-- Candidate chunks of a page sequence: join the pages with newlines,
isolate the accounts section, split at `Member Name` labels. -/
def accChunksOf (pages : List String) : List String :=
  memberSplit (accSectionOf (String.intercalate "\n" pages))

/-- Python truthiness test used for classification:
`if acc["account_details"].get("date_closed"):`. -/
def dateClosedTruthy (a : AccountRecord) : Bool :=
  pyTruthyStr a.account_details.date_closed

/-- The chunk loop of `parse_accounts` (`cibil_parser_v2.py:342-352`):
skip chunks without the literal `Account Type`, parse the rest, skip
records without a truthy member name, and classify the remainder by the
truthiness of the closing date. -/
def accLoop : List String → Except Unit (List AccountRecord × List AccountRecord)
  | [] => .ok ([], [])
  | ch :: rest =>
    if pyIn "Account Type" ch then do
      let acc ← parse_single_account ch
      let (o, c) ← accLoop rest
      if pyTruthyStr acc.member_name then
        if dateClosedTruthy acc then .ok (o, acc :: c)
        else .ok (acc :: o, c)
      else .ok (o, c)
    else accLoop rest

/-- Translation of `parse_accounts` (`cibil_parser_v2.py:330`): the pair
of open and closed account lists. -/
def parse_accounts (pages : List String) :
    Except Unit (List AccountRecord × List AccountRecord) :=
  accLoop (accChunksOf pages)

/-- The same loop, collecting every record it keeps without classifying:
the total extracted record list, used to state the partition invariant. -/
def extLoop : List String → Except Unit (List AccountRecord)
  | [] => .ok []
  | ch :: rest =>
    if pyIn "Account Type" ch then do
      let acc ← parse_single_account ch
      let l ← extLoop rest
      if pyTruthyStr acc.member_name then .ok (acc :: l) else .ok l
    else extLoop rest

/-- All account records `parse_accounts` extracts from a page sequence,
before classification. -/
def extractedAccounts (pages : List String) : Except Unit (List AccountRecord) :=
  extLoop (accChunksOf pages)

/-! ## Remaining section parsers (for the whole-pipeline claims) -/

/-- Digit-or-slash class `[\d/]` used by several date captures. -/
def digitSlash (c : Char) : Bool := c.isDigit || c = '/'

/-- Pattern `{label}\s*[:\-]\s*({cls}+)` under `find` — the
`Control Number` / `Date` / `as of Date` extraction shape. -/
def findLabelSepCls (label : String) (cls : Char → Bool) (s : String) :
    Option String :=
  findCapCI label
    (wsStarK fun t =>
      match t with
      | c :: r =>
        if c = ':' || c = '-' then
          wsStarK (fun t2 =>
            let cap := t2.takeWhile cls
            if cap.isEmpty then none else some cap) r
        else none
      | [] => none) s

/-- Parsed report metadata (`parse_report_metadata`). -/
structure ReportMetadata where
  control_number : Option String
  report_date : Option String
  report_version : String
  deriving Repr, DecidableEq

/-- Translation of `parse_report_metadata` (`cibil_parser_v2.py:63`):
works on the first page (or `""` when the page sequence is empty);
the control number, when found, has commas and spaces removed. -/
def parse_report_metadata (pages : List String) : ReportMetadata :=
  let text := pages.headD ""
  let control := findLabelSepCls "Control Number"
    (fun c => c.isDigit || c = ',' || pyIsSpace c) text
  let rdate := findLabelSepCls "Date" digitSlash text
  { control_number :=
      match control with
      | some v => if v = "" then none else
          some ⟨(v.data.filter (· ≠ ',')).filter (· ≠ ' ')⟩
      | none => none
    report_date := norm_date rdate
    report_version := "1.0" }

/-- Parsed score summary (`parse_score_summary`). -/
structure ScoreSummary where
  cibil_score : Option Nat
  score_date : Option String
  score_range_min : Nat
  score_range_max : Nat
  deriving Repr, DecidableEq

/-- Translation of `parse_score_summary` (`cibil_parser_v2.py:77`). -/
def parse_score_summary (pages : List String) : ScoreSummary :=
  let text := pages.headD ""
  let score := findCapCI "CIBIL Score is"
    (wsPlusK fun t => (grabExact Char.isDigit 3 t).map (·.fst)) text
  let sdate := findLabelSepCls "as of Date" digitSlash text
  { cibil_score :=
      match score with
      | some v => if v = "" then none else some (intOfDigits v.data)
      | none => none
    score_date := norm_date sdate
    score_range_min := 300
    score_range_max := 900 }

/-- Lazy capture `cls+?` up to a stop lookahead: at least one character
of the class, extended one at a time until the lookahead holds. -/
def lazyClsUntil (cls : Char → Bool) (stop : List Char → Bool) :
    List Char → Option (List Char)
  | [] => none
  | c :: cs =>
    if cls c then
      if stop cs then some [c]
      else
        match lazyClsUntil cls stop cs with
        | some cap => some (c :: cap)
        | none => none
    else none

/-- Terminator `(?:\n|Your)` of the greeting-name pattern. -/
def helloStop (l : List Char) : Bool :=
  match l with
  | '\n' :: _ => true
  | _ => (dropLitCI "Your".data l).isSome

/-- Letter-or-whitespace class `[A-Z\s]` under `re.IGNORECASE`. -/
def letterWs (c : Char) : Bool := c.isAlpha || pyIsSpace c

/-- Parsed personal details (`parse_personal_details`). -/
structure PersonalDetails where
  full_name : Option String
  date_of_birth : Option String
  gender : Option String
  deriving Repr, DecidableEq

/-- Translation of `parse_personal_details` (`cibil_parser_v2.py:92`):
greeting-line name with a labelled-line fallback, date of birth, and a
gender keyword, all over the first two pages. -/
def parse_personal_details (pages : List String) : PersonalDetails :=
  let text := String.intercalate "\n" (pages.take 2)
  let name1 := findCapCI "Hello,"
    (wsPlusK fun t =>
      match t with
      | c :: r =>
        if c.isAlpha then (lazyClsUntil letterWs helloStop r).map (c :: ·)
        else none
      | [] => none) text
  let name2 := findCapCI "Name"
    (wsThenNlK fun t =>
      match t with
      | c :: r => if c.isAlpha then some (c :: restOfLine r) else none
      | [] => none) text
  let name := if pyTruthyStr name1 then name1 else name2
  let dob := findCapCI "Date Of Birth"
    (clsPlusK (fun c => c = ',' || pyIsSpace c) fun t =>
      let cap := t.takeWhile digitSlash
      if cap.isEmpty then none else some cap) text
  let gender := findCapCI "Gender"
    (wsPlusK fun t =>
      (["Male", "Female", "Transgender", "Other"].findSome? fun w =>
        (dropLitCI w.data t).map fun _ => t.take w.data.length)) text
  { full_name := (name.map pyStrip)
    date_of_birth := norm_date dob
    gender := gender }

/-- One identification record (`parse_identification`). -/
structure IdRecord where
  id_type : String
  id_number : Option String
  issue_date : Option String
  expiry_date : Option String
  deriving Repr, DecidableEq

/-- Match of `\d{2}/\d{2}/\d{4}` at the current position, returning the
ten captured characters and the rest of the input. -/
def dateDDMMYYYYAt (l : List Char) : Option (List Char × List Char) :=
  (grabExact Char.isDigit 2 l).bind fun (d, r1) =>
    match r1 with
    | '/' :: r2 =>
      (grabExact Char.isDigit 2 r2).bind fun (m, r3) =>
        match r3 with
        | '/' :: r4 =>
          (grabExact Char.isDigit 4 r4).map fun (y, rest) =>
            (d ++ '/' :: m ++ '/' :: y, rest)
        | _ => none
    | _ => none

/-- Lazy gap `[\s\S]{1,200}?` before a date: skip at least one and at
most `n` characters, trying the date pattern after each. -/
def skipThenDate : Nat → List Char → Option (List Char)
  | 0, _ => none
  | _ + 1, [] => none
  | n + 1, _ :: cs =>
    match dateDDMMYYYYAt cs with
    | some (cap, _) => some cap
    | none => skipThenDate n cs

/-- Translation of `parse_identification` (`cibil_parser_v2.py:108`):
a PAN entry is always present (possibly with a null number); a passport
entry is appended when a passport number or issue date was found. -/
def parse_identification (pages : List String) : List IdRecord :=
  let text := String.intercalate "\n" (pages.take 3)
  let pan := findCapCI ""
    (fun l =>
      (match dropLitCI "Income Tax ID".data l with
       | some r => some r
       | none => dropLitCI "PAN".data l).bind fun r =>
        let afterLine := r.dropWhile (· ≠ '\n')
        match afterLine with
        | '\n' :: rest =>
          let r3 := rest.dropWhile (· = '\n')
          (grabExact Char.isAlpha 5 r3).bind fun (a, r4) =>
            (grabExact Char.isDigit 4 r4).bind fun (d, r5) =>
              match r5 with
              | c :: _ => if c.isAlpha then some (a ++ d ++ [c]) else none
              | [] => none
        | _ => none) text
  let ppNum := findCapCI "Passport Number"
    (fun r =>
      let run := r.takeWhile pyIsSpace
      if run.isEmpty || run.getLast? ≠ some '\n' then none
      else
        match r.drop run.length with
        | c :: rest =>
          if c.isAlpha then
            let ds := rest.takeWhile Char.isDigit
            if ds.length ≥ 7 then some (c :: ds.take 8) else none
          else none
        | [] => none) text
  let ppIssue := findCapCI "Passport Number" (skipThenDate 200) text
  let ppExpiryAll := findAllFrom (fun l => (dateDDMMYYYYAt l).map (fun (c, r) => ((⟨c⟩ : String), r))) text.data
  let ppExpiry := ppExpiryAll.get? 1
  let panEntry : IdRecord :=
    { id_type := "PAN", id_number := pan, issue_date := none, expiry_date := none }
  if ppNum.isSome || ppIssue.isSome then
    [panEntry,
     { id_type := "Passport"
       id_number := ppNum
       issue_date := norm_date ppIssue
       expiry_date := norm_date ppExpiry }]
  else [panEntry]

/-- Python `str.split("\n")`: split at every newline, keeping empty pieces. -/
def splitNL : List Char → List (List Char)
  | [] => [[]]
  | c :: rest =>
    let r := splitNL rest
    if c = '\n' then [] :: r
    else (c :: r.headD []) :: r.tail

/-- Consuming split (`re.split` with a consuming pattern): pieces of the
input between the leftmost non-overlapping matches of `matchAt`, which
returns the input remaining after a match.  As in `findAllFromF`, the
fuel always suffices and only makes the recursion structural. -/
def splitConsumingF (matchAt : List Char → Option (List Char)) :
    Nat → List Char → List Char → List String
  | 0, acc, _ => [⟨acc.reverse⟩]
  | _ + 1, acc, [] => [⟨acc.reverse⟩]
  | fuel + 1, acc, c :: cs =>
    match matchAt (c :: cs) with
    | some rest =>
      if rest.length < (c :: cs).length then
        (⟨acc.reverse⟩ : String) :: splitConsumingF matchAt fuel [] rest
      else (⟨acc.reverse⟩ : String) :: splitConsumingF matchAt fuel [] cs
    | none => splitConsumingF matchAt fuel (c :: acc) cs

/-- Consuming split over the whole input. -/
def splitConsuming (matchAt : List Char → Option (List Char))
    (acc : List Char) (l : List Char) : List String :=
  splitConsumingF matchAt (l.length + 1) acc l

/-- Line prefix test `re.match(r"^(Category|Residence Code|Date Reported)", l,
re.IGNORECASE)` of the address scanner. -/
def addrStopLine (l : List Char) : Bool :=
  (dropLitCI "Category".data l).isSome ||
  (dropLitCI "Residence Code".data l).isSome ||
  (dropLitCI "Date Reported".data l).isSome

/-- Python `a or b` on optional strings (`category or residence_code`):
keep `a` when it is truthy, else `b`. -/
def pyOrOpt (a b : Option String) : Option String :=
  if pyTruthyStr a then a else b

/-- Case-insensitive containment `needle in value.lower()` with an ASCII
lower-cased needle. -/
def pyInLower (needle : String) (v : String) : Bool :=
  containsSub needle (v.data.map lowerC)

/-- One address record (`parse_addresses`). -/
structure AddressRecord where
  address_type : String
  address : String
  category : Option String
  date_reported : Option String
  deriving Repr, DecidableEq

/-- Translation of `parse_addresses` (`cibil_parser_v2.py:140`): split
the first three pages at `\nAddress\s*\n` lines, accumulate stripped
non-empty lines of each chunk up to a `Category` / `Residence Code` /
`Date Reported` label, discard accumulations shorter than ten
characters, and classify by the substring `office`. -/
def parse_addresses (pages : List String) : List AddressRecord :=
  let text := String.intercalate "\n" (pages.take 3)
  let chunks := splitConsuming
    (fun l => (dropLit "\nAddress".data l).bind (wsThenNlK some)) [] text.data
  (chunks.drop 1).foldr
    (fun chunk acc =>
      let lines := ((splitNL (pyStripL chunk.data)).map pyStripL).filter (· ≠ [])
      if lines.isEmpty then acc
      else
        let addrLines := lines.takeWhile (fun l => !addrStopLine l)
        let addressStr := pyStrip
          (String.intercalate " " (addrLines.map (fun l => (⟨l⟩ : String))))
        if addressStr.data.length < 10 then acc
        else
          let category := findLabelNL "Category" chunk
          let residenceCode := findLabelNL "Residence Code" chunk
          let dateRep := findLabelNLCls "Date Reported" digitSlash chunk
          let addrType :=
            if pyInLower "office" (category.getD "") || pyInLower "office" addressStr
            then "Office" else "Residence"
          { address_type := addrType
            address := addressStr
            category := pyOrOpt category residenceCode
            date_reported := norm_date dateRep } :: acc)
    []

/-- Python word-character class `\w` (ASCII range). -/
def isWordC (c : Char) : Bool := c.isAlphanum || c = '_'

/-- Scanner for `re.findall(r"\b[6-9]\d{9}\b", text)`: a ten-digit run
starting with 6–9, delimited by word boundaries; `prev` is the character
before the current position (for the left boundary). -/
def phoneScanF : Nat → Option Char → List Char → List String
  | 0, _, _ => []
  | _ + 1, _, [] => []
  | fuel + 1, prev, c :: cs =>
    let leftOk := match prev with | none => true | some p => !isWordC p
    if leftOk && ('6' ≤ c && c ≤ '9') then
      match grabExact Char.isDigit 9 cs with
      | some (ds, rest) =>
        if (match rest with | [] => true | r :: _ => !isWordC r) then
          if rest.length < (c :: cs).length then
            (⟨c :: ds⟩ : String) :: phoneScanF fuel (some (ds.getLastD c)) rest
          else (⟨c :: ds⟩ : String) :: phoneScanF fuel (some c) cs
        else phoneScanF fuel (some c) cs
      | none => phoneScanF fuel (some c) cs
    else phoneScanF fuel (some c) cs

/-- Scan of the whole input for phone numbers. -/
def phoneScan (prev : Option Char) (l : List Char) : List String :=
  phoneScanF (l.length + 1) prev l

/-- Character class `[\w.\-]` of the e-mail pattern. -/
def emailCls (c : Char) : Bool := isWordC c || c = '.' || c = '-'

/-- One match of `[\w.\-]+@[\w.\-]+\.[a-zA-Z]{2,}`: a greedy local part,
`@`, and a greedy domain run backtracked to the last dot that is
followed by at least two letters. -/
def emailAt (l : List Char) : Option (List Char × List Char) :=
  let locPart := l.takeWhile emailCls
  if locPart.isEmpty then none
  else
    match l.drop locPart.length with
    | '@' :: r =>
      let m := r.takeWhile emailCls
      ((List.range m.length).reverse.findSome? fun j =>
        if m.getD j ' ' = '.' && 1 ≤ j then
          let alphaRun := (m.drop (j + 1)).takeWhile Char.isAlpha
          if alphaRun.length ≥ 2 then
            some (locPart ++ '@' :: m.take j ++ '.' :: alphaRun,
                  r.drop (j + 1 + alphaRun.length))
          else none
        else none)
    | _ => none

/-- Parsed contact details (`parse_contact`). -/
structure ContactDetails where
  phone_numbers : List String
  emails : List String
  deriving Repr, DecidableEq

/-- First-occurrence deduplication, modelling Python `list(set(...))`
(whose iteration order is hash-dependent and unspecified; no claim
depends on the order of these lists). -/
def pyDedupF : Nat → List String → List String
  | 0, _ => []
  | _ + 1, [] => []
  | fuel + 1, x :: xs => x :: pyDedupF fuel (xs.filter (fun y => y ≠ x))

/-- First-occurrence deduplication of a whole list. -/
def pyDedup (l : List String) : List String :=
  pyDedupF (l.length + 1) l

/-- Translation of `parse_contact` (`cibil_parser_v2.py:181`). -/
def parse_contact (pages : List String) : ContactDetails :=
  let text := String.intercalate "\n" (pages.take 4)
  let phones := pyDedup (phoneScan none text.data)
  let emailsRaw := pyDedup (findAllFrom
    (fun l => (emailAt l).map (fun (cap, rest) => ((⟨cap⟩ : String), rest)))
    text.data)
  let emails := emailsRaw.filter fun e =>
    e.data.length > 6 &&
      (match (splitConsuming (fun l => match l with
         | '@' :: r => some r
         | _ => none) [] e.data).getLast? with
       | some dom => pyIn "." dom
       | none => false)
  { phone_numbers := phones, emails := emails }

/-- Parsed employment details (`parse_employment`). -/
structure EmploymentDetails where
  account_type : Option String
  occupation : Option String
  income : Option ℚ
  income_type : Option String
  net_gross : Option String
  deriving Repr, DecidableEq

/-- Bounded lazy capture `[\s\S]{1,n}?` up to a stop lookahead. -/
def lazyCapUntilN (stop : List Char → Bool) : Nat → List Char → Option (List Char)
  | 0, _ => none
  | _ + 1, [] => none
  | n + 1, c :: cs =>
    if stop cs then some [c]
    else
      match lazyCapUntilN stop n cs with
      | some cap => some (c :: cap)
      | none => none

/-- Lookahead `(?=ALL ACCOUNTS|ENQUIRY|$)` of the employment section. -/
def empStop (l : List Char) : Bool :=
  (dropLitCI "ALL ACCOUNTS".data l).isSome ||
  (dropLitCI "ENQUIRY".data l).isSome ||
  l = [] || l = ['\n']

/-- Translation of `parse_employment` (`cibil_parser_v2.py:196`): a
bounded window after `EMPLOYMENT DETAILS`, labelled fields on following
lines, `norm_float` for the income (whose capture is digits and
commas). -/
def parse_employment (pages : List String) : Except Unit EmploymentDetails := do
  let text := String.intercalate "\n" (pages.take 4)
  let sect :=
    (findCapCI "EMPLOYMENT DETAILS" (lazyCapUntilN empStop 600) text).getD ""
  let incomeRaw := findLabelNLCls "Income" (fun c => c.isDigit || c = ',') sect
  let income ← norm_float incomeRaw
  let indicator := findLabelNL "Monthly / Annual Income Indicator" sect
  let netGross := findLabelNL "Net / Gross Income Indicator" sect
  .ok
    { account_type := findLabelNL "Account Type" sect
      occupation := findLabelNL "Occupation" sect
      income := income
      income_type := if pyTruthyStr indicator then indicator else none
      net_gross := if pyTruthyStr netGross then netGross else none }

/-! ## Enquiries (`parse_enquiries`, `cibil_parser_v2.py:363`) -/

/-- One enquiry record. -/
structure EnquiryRecord where
  member_name : String
  enquiry_date : Option String
  enquiry_amount : Option Nat
  enquiry_type : String
  deriving Repr, DecidableEq

/-- Lookahead `(?=End of report|$)` of the enquiry section pattern. -/
def enqStop (l : List Char) : Bool :=
  (dropLitCI "End of report".data l).isSome || l = [] || l = ['\n']

/-- Bounded greedy capture `cls{lo,hi}` with full backtracking into the
continuation `k`, which receives the captured run and the rest. -/
def boundedClsK (cls : Char → Bool) (lo : Nat) :
    Nat → (List Char → List Char → Option α) → List Char → Option α
  | 0, k, l => if lo = 0 then k [] l else none
  | _ + 1, k, [] => if lo = 0 then k [] [] else none
  | h + 1, k, c :: cs =>
    if cls c then
      match boundedClsK cls (lo - 1) h (fun cap rest => k (c :: cap) rest) cs with
      | some r => some r
      | none => if lo = 0 then k [] (c :: cs) else none
    else if lo = 0 then k [] (c :: cs) else none

/-- One match of the four-line enquiry row pattern
`(\d{2}/\d{2}/\d{4})\s*\n([A-Z][^\n]{2,50})\s*\n([^\n]{3,50})\s*\n([^\n]{3,50})`
(under `re.IGNORECASE`, so `[A-Z]` matches any letter). -/
def enquiryRowAt (l : List Char) :
    Option ((String × String × String × String) × List Char) :=
  (dateDDMMYYYYAt l).bind fun (d, r) =>
    wsThenNlK (fun t =>
      match t with
      | c :: r2 =>
        if c.isAlpha then
          boundedClsK (· ≠ '\n') 2 50 (fun cap2 rest2 =>
            wsThenNlK (fun t3 =>
              boundedClsK (· ≠ '\n') 3 50 (fun cap3 rest3 =>
                wsThenNlK (fun t4 =>
                  boundedClsK (· ≠ '\n') 3 50 (fun cap4 rest4 =>
                    some (((⟨d⟩ : String), (⟨c :: cap2⟩ : String),
                           (⟨cap3⟩ : String), (⟨cap4⟩ : String)), rest4)) t4)
                  rest3) t3)
              rest2) r2
        else none
      | [] => none) r

/-- Address-fragment denylist applied to the upper-cased member line. -/
def enquiryNoise (member : String) : Bool :=
  let up : List Char := member.data.map Char.toUpper
  ["NAGAR", "CITY", "TALUKA", "ROAD", "PLOT", "WING"].any fun w =>
    containsSub w up

/-- Translation of `parse_enquiries` (`cibil_parser_v2.py:363`). -/
def parse_enquiries (pages : List String) : List EnquiryRecord :=
  let fullText := String.intercalate "\n" pages
  let sect :=
    (findCapCI "ENQUIRY DETAILS" (lazyCapUntil enqStop) fullText).getD ""
  if pyIn "No Enquiry Information Reported" sect then []
  else
    (findAllFrom enquiryRowAt sect.data).foldr
      (fun (row : String × String × String × String) acc =>
        let (dt, member, acctType, purpose) := row
        if enquiryNoise member then acc
        else
          let amount := searchFrom
            (fun t =>
              let ds := t.takeWhile Char.isDigit
              if ds.length ≥ 5 then some ds else none) purpose.data
          { member_name := pyStrip member
            enquiry_date := norm_date (some dt)
            enquiry_amount := amount.map intOfDigits
            enquiry_type := pyStrip acctType } :: acc)
      []

/-! ## Whole-pipeline record (`parse_cibil_pdf`, `cibil_parser_v2.py:394`) -/

/-- The structured report produced by one parse invocation. -/
structure CibilReport where
  report_metadata : ReportMetadata
  score_summary : ScoreSummary
  personal_details : PersonalDetails
  identification_details : List IdRecord
  address_details : List AddressRecord
  contact_details : ContactDetails
  employment_details : EmploymentDetails
  accounts : List AccountRecord × List AccountRecord
  enquiries : List EnquiryRecord
  deriving Repr, DecidableEq

/-- Translation of `parse_cibil_pdf` after the OCR collaborator call
(`cibil_parser_v2.py:399-409`): the nine section parsers applied to the
page sequence.  The first component of `accounts` is the open list, the
second the closed list.  An exception from any section parser
propagates and aborts the whole parse. -/
def parse_cibil_pages (pages : List String) : Except Unit CibilReport := do
  let employment ← parse_employment pages
  let accounts ← parse_accounts pages
  .ok
    { report_metadata := parse_report_metadata pages
      score_summary := parse_score_summary pages
      personal_details := parse_personal_details pages
      identification_details := parse_identification pages
      address_details := parse_addresses pages
      contact_details := parse_contact pages
      employment_details := employment
      accounts := accounts
      enquiries := parse_enquiries pages }

/-! ## Persistence (`init_db` schema, `save_to_db`, `cibil_parser_v2.py:525`)

Rows mirror the columns each `INSERT` statement writes.  Surrogate `id`
columns are modelled only where the code reads them back (`report_metadata`
via the upsert, `accounts` via `cur.lastrowid` for payment-history
linkage); the other child tables' autoincrement ids are never read. -/

/-- Row of `report_metadata`.  `created_at` (a wall-clock timestamp) is
not modelled; no claim depends on it. -/
structure MetaRow where
  id : Nat
  control_number : Option String
  report_date : Option String
  report_version : Option String
  deriving Repr, DecidableEq

/-- Row of `score_summary`. -/
structure ScoreRow where
  report_id : Nat
  cibil_score : Option Nat
  score_date : Option String
  score_range_min : Nat
  score_range_max : Nat
  deriving Repr, DecidableEq

/-- Row of `personal_details`. -/
structure PersonalRow where
  report_id : Nat
  full_name : Option String
  date_of_birth : Option String
  gender : Option String
  deriving Repr, DecidableEq

/-- Row of `identification_details`. -/
structure IdentRow where
  report_id : Nat
  id_type : String
  id_number : Option String
  issue_date : Option String
  expiry_date : Option String
  deriving Repr, DecidableEq

/-- Row of `address_details`. -/
structure AddressRow where
  report_id : Nat
  address_type : String
  address : String
  category : Option String
  date_reported : Option String
  deriving Repr, DecidableEq

/-- Row of `contact_details`; the two columns hold `json.dumps` of the
string lists, modelled as the lists themselves. -/
structure ContactRow where
  report_id : Nat
  phone_numbers : List String
  emails : List String
  deriving Repr, DecidableEq

/-- Row of `employment_details`. -/
structure EmploymentRow where
  report_id : Nat
  account_type : Option String
  occupation : Option String
  income : Option ℚ
  income_type : Option String
  net_gross : Option String
  deriving Repr, DecidableEq

/-- Row of `accounts` (`is_open`: 1 = open, 0 = closed). -/
structure AccountRow where
  id : Nat
  report_id : Nat
  is_open : Nat
  member_name : Option String
  account_type : Option String
  ownership : Option String
  account_number_masked : Option String
  credit_limit : Option ℚ
  high_credit : Option ℚ
  sanctioned_amount : Option ℚ
  current_balance : Option ℚ
  cash_limit : Option ℚ
  amount_overdue : Option ℚ
  rate_of_interest : Option ℚ
  repayment_tenure : Option Int
  emi_amount : Option ℚ
  payment_frequency : Option String
  date_opened : Option String
  date_closed : Option String
  date_last_payment : Option String
  written_off_amount : Option ℚ
  settlement_amount : Option ℚ
  suit_filed_flag : Nat
  deriving Repr, DecidableEq

/-- Row of `payment_history`. -/
structure PaymentRow where
  account_id : Nat
  month : String
  dpd : Option Int
  deriving Repr, DecidableEq

/-- Row of `enquiries`. -/
structure EnquiryRow where
  report_id : Nat
  member_name : String
  enquiry_date : Option String
  enquiry_amount : Option Nat
  enquiry_type : String
  deriving Repr, DecidableEq

/-- The relational state: one list per table, plus the autoincrement
counters the code observes (`report_metadata.id` and `accounts.id`). -/
structure DB where
  report_metadata : List MetaRow
  score_summary : List ScoreRow
  personal_details : List PersonalRow
  identification_details : List IdentRow
  address_details : List AddressRow
  contact_details : List ContactRow
  employment_details : List EmploymentRow
  accounts : List AccountRow
  payment_history : List PaymentRow
  enquiries : List EnquiryRow
  nextReportId : Nat
  nextAccountId : Nat
  deriving Repr, DecidableEq

/-- The freshly created database of `init_db`: empty tables, rowids
starting at 1. -/
def initDB : DB :=
  { report_metadata := [], score_summary := [], personal_details := []
    identification_details := [], address_details := [], contact_details := []
    employment_details := [], accounts := [], payment_history := []
    enquiries := [], nextReportId := 1, nextAccountId := 1 }

/-- Step 1 of `save_to_db` (`cibil_parser_v2.py:530-538`): the
`INSERT ... ON CONFLICT(control_number) DO UPDATE` upsert followed by
`report_id = cur.lastrowid or SELECT id ...`.  A conflict fires only
for a non-null control number equal to an existing row's (SQL `NULL`
never equals `NULL`); the update branch rewrites `report_date` and
leaves the id.  On the update branch `cur.lastrowid` is the last rowid
actually inserted through this connection — `0` on the fresh
connection each caller opens — so the `or` falls through to the
`SELECT`, modelled directly as the matched row's id. -/
def upsertMeta (db : DB) (meta : ReportMetadata) : DB × Nat :=
  match meta.control_number with
  | some c =>
    match db.report_metadata.find? (fun r => r.control_number = some c) with
    | some row =>
      ({ db with
          report_metadata := db.report_metadata.map fun r =>
            if r.control_number = some c then
              { r with report_date := meta.report_date }
            else r },
       row.id)
    | none =>
      ({ db with
          report_metadata := db.report_metadata ++
            [{ id := db.nextReportId, control_number := some c
               report_date := meta.report_date
               report_version := some meta.report_version }]
          nextReportId := db.nextReportId + 1 },
       db.nextReportId)
  | none =>
    ({ db with
        report_metadata := db.report_metadata ++
          [{ id := db.nextReportId, control_number := none
             report_date := meta.report_date
             report_version := some meta.report_version }]
        nextReportId := db.nextReportId + 1 },
     db.nextReportId)

/-- Step 8 of `save_to_db` (`cibil_parser_v2.py:571-595`): insert one
account row (taking its fresh rowid) and its payment-history rows. -/
def insertAccount (reportId : Nat) (isOpen : Nat) (db : DB)
    (acc : AccountRecord) : DB :=
  let accId := db.nextAccountId
  let d := acc.account_details
  { db with
      accounts := db.accounts ++
        [{ id := accId, report_id := reportId, is_open := isOpen
           member_name := acc.member_name
           account_type := acc.account_type
           ownership := acc.ownership
           account_number_masked := acc.account_number_masked
           credit_limit := d.credit_limit
           high_credit := d.high_credit
           sanctioned_amount := d.sanctioned_amount
           current_balance := d.current_balance
           cash_limit := d.cash_limit
           amount_overdue := d.amount_overdue
           rate_of_interest := d.rate_of_interest
           repayment_tenure := d.repayment_tenure
           emi_amount := d.emi_amount
           payment_frequency := d.payment_frequency
           date_opened := d.date_opened
           date_closed := d.date_closed
           date_last_payment := d.date_last_payment
           written_off_amount := d.written_off_amount
           settlement_amount := d.settlement_amount
           suit_filed_flag := if d.suit_filed_flag then 1 else 0 }]
      payment_history := db.payment_history ++
        acc.payment_history.map fun ph =>
          { account_id := accId, month := ph.month, dpd := ph.dpd }
      nextAccountId := accId + 1 }

/-- Translation of `save_to_db` (`cibil_parser_v2.py:525`): upsert the
report row, then insert every child row under the resulting report id;
returns the updated state and the report id. -/
def save_to_db (db : DB) (data : CibilReport) : DB × Nat :=
  let (db, reportId) := upsertMeta db data.report_metadata
  let s := data.score_summary
  let db : DB := { db with
    score_summary := db.score_summary ++
      [{ report_id := reportId, cibil_score := s.cibil_score
         score_date := s.score_date
         score_range_min := s.score_range_min
         score_range_max := s.score_range_max }] }
  let p := data.personal_details
  let db : DB := { db with
    personal_details := db.personal_details ++
      [{ report_id := reportId, full_name := p.full_name
         date_of_birth := p.date_of_birth, gender := p.gender }] }
  let db : DB := { db with
    identification_details := db.identification_details ++
      data.identification_details.map fun i =>
        { report_id := reportId, id_type := i.id_type
          id_number := i.id_number, issue_date := i.issue_date
          expiry_date := i.expiry_date } }
  let db : DB := { db with
    address_details := db.address_details ++
      data.address_details.map fun a =>
        { report_id := reportId, address_type := a.address_type
          address := a.address, category := a.category
          date_reported := a.date_reported } }
  let c := data.contact_details
  let db : DB := { db with
    contact_details := db.contact_details ++
      [{ report_id := reportId, phone_numbers := c.phone_numbers
         emails := c.emails }] }
  let e := data.employment_details
  let db : DB := { db with
    employment_details := db.employment_details ++
      [{ report_id := reportId, account_type := e.account_type
         occupation := e.occupation, income := e.income
         income_type := e.income_type, net_gross := e.net_gross }] }
  let db := (data.accounts.fst).foldl (insertAccount reportId 1) db
  let db := (data.accounts.snd).foldl (insertAccount reportId 0) db
  let db : DB := { db with
    enquiries := db.enquiries ++
      data.enquiries.map fun q =>
        { report_id := reportId, member_name := q.member_name
          enquiry_date := q.enquiry_date
          enquiry_amount := q.enquiry_amount
          enquiry_type := q.enquiry_type } }
  (db, reportId)

/-! ## API layer (`main.py`): report lookup and delete -/

/-- The 404 gate of `get_report` (`main.py:126-128`): look the report id
up in `report_metadata`; `.error 404` models the raised
`HTTPException(status_code=404)`.  (The rest of the endpoint assembles
the response from the child tables once the row exists.) -/
def get_report_lookup (db : DB) (reportId : Nat) : Except Nat MetaRow :=
  match db.report_metadata.find? (fun r => r.id = reportId) with
  | some row => .ok row
  | none => .error 404

/-- Translation of `delete_report` (`main.py:247-266`): 404 when the
report row is missing; otherwise delete the payment-history rows of the
report's accounts, then each child table's rows for the report, then
the report row itself. -/
def delete_report (db : DB) (reportId : Nat) : Except Nat DB :=
  match db.report_metadata.find? (fun r => r.id = reportId) with
  | none => .error 404
  | some _ =>
    let accIds := (db.accounts.filter (fun a => a.report_id = reportId)).map (·.id)
    .ok
      { db with
          payment_history :=
            db.payment_history.filter fun p => !accIds.contains p.account_id
          accounts := db.accounts.filter fun a => !(a.report_id = reportId)
          enquiries := db.enquiries.filter fun q => !(q.report_id = reportId)
          employment_details :=
            db.employment_details.filter fun r => !(r.report_id = reportId)
          contact_details :=
            db.contact_details.filter fun r => !(r.report_id = reportId)
          address_details :=
            db.address_details.filter fun r => !(r.report_id = reportId)
          identification_details :=
            db.identification_details.filter fun r => !(r.report_id = reportId)
          personal_details :=
            db.personal_details.filter fun r => !(r.report_id = reportId)
          score_summary :=
            db.score_summary.filter fun r => !(r.report_id = reportId)
          report_metadata :=
            db.report_metadata.filter fun r => !(r.id = reportId) }

/-! ## Character-class and stripping lemmas -/

theorem isDigit_not_space {c : Char} (h : c.isDigit = true) : pyIsSpace c = false := by
  cases hs : pyIsSpace c with
  | false => rfl
  | true =>
    unfold pyIsSpace at hs
    simp only [Bool.or_eq_true, decide_eq_true_eq] at hs
    rcases hs with ((((rfl | rfl) | rfl) | rfl) | rfl) | rfl <;> exact absurd h (by decide)

theorem dateSep_not_digit {c : Char} (h : dateSep c = true) : c.isDigit = false := by
  unfold dateSep at h
  simp only [Bool.or_eq_true, decide_eq_true_eq] at h
  rcases h with (rfl | rfl) | rfl <;> decide

theorem dateSep_not_space {c : Char} (h : dateSep c = true) : pyIsSpace c = false := by
  unfold dateSep at h
  simp only [Bool.or_eq_true, decide_eq_true_eq] at h
  rcases h with (rfl | rfl) | rfl <;> decide

theorem dropWhile_eq_self_of_not (p : Char → Bool) (l : List Char)
    (h : ∀ c ∈ l, p c = false) : l.dropWhile p = l := by
  cases l with
  | nil => rfl
  | cons c cs => simp [List.dropWhile_cons, h c (by simp)]

theorem pyStripL_eq_self (l : List Char) (h : ∀ c ∈ l, pyIsSpace c = false) :
    pyStripL l = l := by
  unfold pyStripL
  rw [dropWhile_eq_self_of_not _ _ h]
  rw [dropWhile_eq_self_of_not _ _ (fun c hc => h c (List.mem_reverse.mp hc))]
  exact List.reverse_reverse l

/-! ## Behaviour of `norm_date` on date-shaped input -/

theorem norm_date_of_clean (l : List Char)
    (hns : ∀ c ∈ l, pyIsSpace c = false)
    (h0 : l ≠ []) (h1 : l ≠ ['-']) (h2 : l ≠ ['N', 'o', 'n', 'e']) :
    norm_date (some ⟨l⟩) =
      match matchDMY l with
      | some (d, m, y) =>
        some ((⟨y⟩ : String) ++ "-" ++ pyFmt02 (intOfDigits m) ++ "-" ++ pyFmt02 (intOfDigits d))
      | none => none := by
  have hstrip : pyStrip ⟨l⟩ = ⟨l⟩ := by
    unfold pyStrip
    rw [show (⟨l⟩ : String).data = l from rfl, pyStripL_eq_self l hns]
  unfold norm_date
  dsimp only
  rw [hstrip]
  simp [String.ext_iff, h0, h1, h2]

theorem matchDMY_shape (ds ms ys : List Char) (s1 s2 : Char)
    (hd : ds.length = 1 ∨ ds.length = 2) (hdd : ds.all Char.isDigit = true)
    (hm : ms.length = 1 ∨ ms.length = 2) (hmd : ms.all Char.isDigit = true)
    (hy : ys.length = 4) (hyd : ys.all Char.isDigit = true)
    (h1 : dateSep s1 = true) (h2 : dateSep s2 = true) :
    matchDMY (ds ++ s1 :: ms ++ s2 :: ys) = some (ds, ms, ys) := by
  have hs1 := dateSep_not_digit h1
  have hs2 := dateSep_not_digit h2
  obtain ⟨y1, y2, y3, y4, rfl⟩ : ∃ y1 y2 y3 y4, ys = [y1, y2, y3, y4] := by
    rcases ys with _ | ⟨y1, _ | ⟨y2, _ | ⟨y3, _ | ⟨y4, _ | ⟨y5, t⟩⟩⟩⟩⟩ <;>
      simp at hy
    exact ⟨y1, y2, y3, y4, rfl⟩
  simp only [List.all_cons, List.all_nil, Bool.and_eq_true, and_true] at hyd
  obtain ⟨hy1, hy2, hy3, hy4⟩ := hyd
  rcases hd with hd | hd
  · obtain ⟨a, rfl⟩ : ∃ a, ds = [a] := by
      rcases ds with _ | ⟨a, _ | ⟨b, t⟩⟩ <;> simp at hd
      exact ⟨a, rfl⟩
    simp only [List.all_cons, List.all_nil, Bool.and_eq_true, and_true] at hdd
    rcases hm with hm | hm
    · obtain ⟨c, rfl⟩ : ∃ c, ms = [c] := by
        rcases ms with _ | ⟨c, _ | ⟨d, t⟩⟩ <;> simp at hm
        exact ⟨c, rfl⟩
      simp only [List.all_cons, List.all_nil, Bool.and_eq_true, and_true] at hmd
      simp [matchDMY, grab12, grabExact, hdd, hmd, hs1, hs2, h1, h2, hy1, hy2, hy3, hy4]
    · obtain ⟨c, d, rfl⟩ : ∃ c d, ms = [c, d] := by
        rcases ms with _ | ⟨c, _ | ⟨d, _ | ⟨e, t⟩⟩⟩ <;> simp at hm
        exact ⟨c, d, rfl⟩
      simp only [List.all_cons, List.all_nil, Bool.and_eq_true, and_true] at hmd
      simp [matchDMY, grab12, grabExact, hdd, hmd.1, hmd.2, hs1, hs2, h1, h2, hy1, hy2, hy3, hy4]
  · obtain ⟨a, b, rfl⟩ : ∃ a b, ds = [a, b] := by
      rcases ds with _ | ⟨a, _ | ⟨b, _ | ⟨e, t⟩⟩⟩ <;> simp at hd
      exact ⟨a, b, rfl⟩
    simp only [List.all_cons, List.all_nil, Bool.and_eq_true, and_true] at hdd
    rcases hm with hm | hm
    · obtain ⟨c, rfl⟩ : ∃ c, ms = [c] := by
        rcases ms with _ | ⟨c, _ | ⟨d, t⟩⟩ <;> simp at hm
        exact ⟨c, rfl⟩
      simp only [List.all_cons, List.all_nil, Bool.and_eq_true, and_true] at hmd
      simp [matchDMY, grab12, grabExact, hdd.1, hdd.2, hmd, hs1, hs2, h1, h2, hy1, hy2, hy3, hy4]
    · obtain ⟨c, d, rfl⟩ : ∃ c d, ms = [c, d] := by
        rcases ms with _ | ⟨c, _ | ⟨d, _ | ⟨e, t⟩⟩⟩ <;> simp at hm
        exact ⟨c, d, rfl⟩
      simp only [List.all_cons, List.all_nil, Bool.and_eq_true, and_true] at hmd
      simp [matchDMY, grab12, grabExact, hdd.1, hdd.2, hmd.1, hmd.2, hs1, hs2, h1, h2, hy1, hy2, hy3, hy4]

theorem norm_date_dmy (ds ms ys : List Char) (s1 s2 : Char)
    (hd : ds.length = 1 ∨ ds.length = 2) (hdd : ds.all Char.isDigit = true)
    (hm : ms.length = 1 ∨ ms.length = 2) (hmd : ms.all Char.isDigit = true)
    (hy : ys.length = 4) (hyd : ys.all Char.isDigit = true)
    (h1 : dateSep s1 = true) (h2 : dateSep s2 = true) :
    norm_date (some ⟨ds ++ s1 :: ms ++ s2 :: ys⟩) =
      some ((⟨ys⟩ : String) ++ "-" ++ pyFmt02 (intOfDigits ms) ++ "-" ++ pyFmt02 (intOfDigits ds)) := by
  have hns : ∀ c ∈ ds ++ s1 :: ms ++ s2 :: ys, pyIsSpace c = false := by
    intro c hc
    simp only [List.mem_append, List.mem_cons] at hc
    rcases hc with (h | rfl | h) | rfl | h
    · exact isDigit_not_space (List.all_eq_true.mp hdd c h)
    · exact dateSep_not_space h1
    · exact isDigit_not_space (List.all_eq_true.mp hmd c h)
    · exact dateSep_not_space h2
    · exact isDigit_not_space (List.all_eq_true.mp hyd c h)
  have hlen : (ds ++ s1 :: ms ++ s2 :: ys).length = ds.length + ms.length + 6 := by
    simp [hy]; omega
  have h0 : ds ++ s1 :: ms ++ s2 :: ys ≠ [] := by
    intro h; have := congrArg List.length h; rw [hlen] at this; simp at this
  have hne1 : ds ++ s1 :: ms ++ s2 :: ys ≠ ['-'] := by
    intro h; have := congrArg List.length h; rw [hlen] at this; simp at this
  have hne2 : ds ++ s1 :: ms ++ s2 :: ys ≠ ['N', 'o', 'n', 'e'] := by
    intro h; have := congrArg List.length h; rw [hlen] at this; simp at this
  rw [norm_date_of_clean _ hns h0 hne1 hne2,
    matchDMY_shape ds ms ys s1 s2 hd hdd hm hmd hy hyd h1 h2]

/-- C8: for every input string, `norm_date` accepts `D/M/YYYY`,
`D-M-YYYY` and `D.M.YYYY` (1–2 digit day and month, 4-digit year, the
two separators independently drawn from the class), zero-pads day and
month via `:02d` and reorders to `YYYY-MM-DD`; it returns `none` for
empty input, `-`, `None`, and non-matching input — including its own
output shape, so `norm_date "2024-03-05"` is `none` — and, being a
total function, never raises. -/
theorem C8_norm_date_canonical :
    (∀ (ds ms ys : List Char) (s1 s2 : Char),
        ds.length = 1 ∨ ds.length = 2 → ds.all Char.isDigit = true →
        ms.length = 1 ∨ ms.length = 2 → ms.all Char.isDigit = true →
        ys.length = 4 → ys.all Char.isDigit = true →
        dateSep s1 = true → dateSep s2 = true →
        norm_date (some ⟨ds ++ s1 :: ms ++ s2 :: ys⟩) =
          some ((⟨ys⟩ : String) ++ "-" ++ pyFmt02 (intOfDigits ms) ++ "-" ++
            pyFmt02 (intOfDigits ds))) ∧
    norm_date (some "05/03/2024") = some "2024-03-05" ∧
    norm_date (some "") = none ∧
    norm_date (some "-") = none ∧
    norm_date (some "None") = none ∧
    norm_date (some "2024-03-05") = none ∧
    norm_date none = none :=
  ⟨fun ds ms ys s1 s2 hd hdd hm hmd hy hyd h1 h2 =>
      norm_date_dmy ds ms ys s1 s2 hd hdd hm hmd hy hyd h1 h2,
   by decide, by decide, by decide, by decide, by decide, by decide⟩

/-- Witness for C8: the general statement applied at the concrete input
`7/4/2024`, with every hypothesis discharged by computation. -/
theorem C8_norm_date_canonical_witness :
    norm_date (some "7/4/2024") = some "2024-04-07" := by
  have h := C8_norm_date_canonical.1 ['7'] ['4'] ['2', '0', '2', '4'] '/' '/'
    (by decide) (by decide) (by decide) (by decide) (by decide) (by decide)
    (by decide) (by decide)
  simpa using h

/-! ## Token mapping lemmas (claim C2) -/

theorem pyIntToken_digit_run (l : List Char) (h0 : l ≠ [])
    (hd : l.all Char.isDigit = true) :
    pyIntToken ⟨l⟩ = some ((intOfDigits l : Int)) := by
  rcases l with _ | ⟨c, cs⟩
  · exact absurd rfl h0
  · have hc : c.isDigit = true := (List.all_eq_true.mp hd c (by simp))
    have hplus : (c = '+') = False := by
      simp only [eq_iff_iff, iff_false]
      intro h; subst h; exact absurd hc (by decide)
    have hminus : (c = '-') = False := by
      simp only [eq_iff_iff, iff_false]
      intro h; subst h; exact absurd hc (by decide)
    unfold pyIntToken
    rw [show ((⟨c :: cs⟩ : String)).data = c :: cs from rfl,
      pyStripL_eq_self _ (fun x hx => isDigit_not_space (List.all_eq_true.mp hd x hx))]
    simp [hplus, hminus, hd]

/-- C2: the delinquency-token mapping of `parse_payment_history`: an
absent token, `STD`, the empty capture and `0` map to 0; `XXX` maps to
`None`; a digit-run token maps to its integer value; any other token
whose `int()` parse fails (such as `SMA`) degrades to 0 instead of
raising. -/
theorem C2_token_mapping :
    dpdOfToken none = some 0 ∧
    dpdOfToken (some "STD") = some 0 ∧
    dpdOfToken (some "") = some 0 ∧
    dpdOfToken (some "0") = some 0 ∧
    dpdOfToken (some "XXX") = none ∧
    (∀ t : List Char, t ≠ [] → t.all Char.isDigit = true →
        dpdOfToken (some ⟨t⟩) = some ((intOfDigits t : Int))) ∧
    dpdOfToken (some "45") = some 45 ∧
    dpdOfToken (some "SMA") = some 0 ∧
    (∀ t : String, t ≠ "STD" → t ≠ "" → t ≠ "0" → t ≠ "XXX" →
        pyIntToken t = none → dpdOfToken (some t) = some 0) := by
  refine ⟨by decide, by decide, by decide, by decide, by decide, ?_, by decide,
    by decide, ?_⟩
  · intro t h0 hd
    have hSTD : ((⟨t⟩ : String) = "STD") = False := by
      simp only [eq_iff_iff, iff_false, String.ext_iff]
      intro h; subst h; exact absurd hd (by decide)
    have hXXX : ((⟨t⟩ : String) = "XXX") = False := by
      simp only [eq_iff_iff, iff_false, String.ext_iff]
      intro h; subst h; exact absurd hd (by decide)
    have hE : ((⟨t⟩ : String) = "") = False := by
      simp only [eq_iff_iff, iff_false, String.ext_iff]
      exact h0
    by_cases h0c : (⟨t⟩ : String) = "0"
    · have ht : t = ['0'] := by
        rw [String.ext_iff] at h0c
        exact h0c
      subst ht
      decide
    · unfold dpdOfToken
      simp only [hSTD, hXXX, hE, h0c, if_false, Bool.or_self, Bool.or_eq_true,
        decide_eq_true_eq, false_or, or_false, decide_False, Bool.false_or,
        Bool.or_false, ite_false]
      rw [pyIntToken_digit_run t h0 hd]
      simp
  · intro t h1 h2 h3 h4 hp
    unfold dpdOfToken
    dsimp only
    rw [if_neg (by simp [h1, h2, h3]), if_neg h4, hp]

/-- Witness for C2: the digit-run conjunct applied at the token `777`. -/
theorem C2_token_mapping_witness : dpdOfToken (some "777") = some 777 := by
  have h := C2_token_mapping.2.2.2.2.2.1 ['7', '7', '7'] (by decide) (by decide)
  simpa using h

/-! ## Decimal values (claim C7) -/

/-- Number of characters after the (first) dot — the length of the
fractional digit block of a digits-and-dots string. -/
def fracLen (l : List Char) : Nat :=
  match l.dropWhile (· ≠ '.') with
  | _ :: t => t.length
  | [] => 0

/-- The decimal value denoted by a digits-and-dots string with at most
one dot: its digits read as an integer, scaled down by the number of
fractional digits.  This is the specification-side value `norm_float`
is compared against. -/
def decVal (l : List Char) : ℚ :=
  (intOfDigits (l.filter Char.isDigit) : ℚ) / (10 : ℚ) ^ fracLen l

theorem foldl_digits (b : List Char) : ∀ n : Nat,
    b.foldl (fun n c => n * 10 + (c.toNat - 48)) n = n * 10 ^ b.length + intOfDigits b := by
  induction b with
  | nil => intro n; simp [intOfDigits]
  | cons c cs ih =>
    intro n
    show cs.foldl _ (n * 10 + (c.toNat - 48)) = _
    rw [ih (n * 10 + (c.toNat - 48))]
    have : intOfDigits (c :: cs) = (c.toNat - 48) * 10 ^ cs.length + intOfDigits cs := by
      show cs.foldl _ (0 * 10 + (c.toNat - 48)) = _
      rw [ih (0 * 10 + (c.toNat - 48))]
      ring_nf
    rw [this]
    simp [List.length_cons]
    ring

theorem intOfDigits_append (a b : List Char) :
    intOfDigits (a ++ b) = intOfDigits a * 10 ^ b.length + intOfDigits b := by
  show (a ++ b).foldl _ 0 = _
  rw [List.foldl_append, foldl_digits b]
  rfl

theorem keep_not_space {c : Char} (h : keepDigitDot c = true) : pyIsSpace c = false := by
  unfold keepDigitDot at h
  simp only [Bool.or_eq_true, decide_eq_true_eq] at h
  rcases h with h | rfl
  · exact isDigit_not_space h
  · decide

theorem takeWhile_all_append (p : Char → Bool) (a b : List Char)
    (ha : ∀ c ∈ a, p c = true) :
    (a ++ b).takeWhile p = a ++ b.takeWhile p ∧ (a ++ b).dropWhile p = b.dropWhile p := by
  induction a with
  | nil => simp
  | cons c cs ih =>
    have hc := ha c (by simp)
    have := ih (fun x hx => ha x (by simp [hx]))
    simp [List.takeWhile_cons, List.dropWhile_cons, hc, this.1, this.2]

theorem takeWhile_all (p : Char → Bool) (l : List Char) (h : ∀ c ∈ l, p c = true) :
    l.takeWhile p = l ∧ l.dropWhile p = [] := by
  have := takeWhile_all_append p l [] h
  simpa using this

theorem takeWhile_none (p : Char → Bool) (l : List Char)
    (h : ∀ c ∈ l, p c = false) : l.takeWhile p = [] ∧ l.dropWhile p = l := by
  cases l with
  | nil => simp
  | cons c cs =>
    have hc := h c (by simp)
    simp [List.takeWhile_cons, List.dropWhile_cons, hc]

theorem dropWhile_head_false (p : Char → Bool) :
    ∀ (l : List Char) (c : Char) (cs : List Char),
      l.dropWhile p = c :: cs → p c = false := by
  intro l
  induction l with
  | nil => intro c cs h; simp at h
  | cons x xs ih =>
    intro c cs h
    rw [List.dropWhile_cons] at h
    by_cases hx : p x = true
    · rw [if_pos hx] at h; exact ih c cs h
    · rw [if_neg hx] at h
      cases h
      simpa using hx

theorem digit_head_facts {c : Char} (h : c.isDigit = true) :
    (c = '-') = False ∧ (c = '+') = False ∧ (c = '.') = False := by
  refine ⟨?_, ?_, ?_⟩ <;>
    (simp only [eq_iff_iff, iff_false]; intro hh; subst hh; exact absurd h (by decide))

theorem pyFloatSign_no_sign (l : List Char)
    (h1 : (l.headD ' ' = '-') = False) (h2 : (l.headD ' ' = '+') = False) :
    pyFloatSign l = (1, l) := by
  unfold pyFloatSign
  rw [if_neg (by rw [h1]; exact not_false), if_neg (by rw [h2]; exact not_false)]

theorem pyFloatMant_ip_fp (ip fp : List Char)
    (hipd : ∀ c ∈ ip, c.isDigit = true) (hfpd : ∀ c ∈ fp, c.isDigit = true)
    (hne : ip ≠ [] ∨ fp ≠ []) :
    pyFloatMant (ip ++ '.' :: fp) =
      some ((intOfDigits ip : ℚ) + (intOfDigits fp : ℚ) / (10 : ℚ) ^ fp.length, []) := by
  have htwip := takeWhile_all_append Char.isDigit ip ('.' :: fp) hipd
  have htwfp := takeWhile_all Char.isDigit fp hfpd
  have hdot : ('.' : Char).isDigit = false := by decide
  unfold pyFloatMant
  dsimp only
  rw [htwip.1, htwip.2]
  simp only [List.takeWhile_cons, List.dropWhile_cons, hdot, Bool.false_eq_true,
    if_false, ite_false, List.append_nil, List.headD_cons, if_pos rfl,
    List.tail_cons]
  rw [htwfp.1, htwfp.2]
  rw [if_neg ?hcond]
  case hcond =>
    simp only [Bool.and_eq_true, List.isEmpty_iff]
    rintro ⟨h1, h2⟩
    rcases hne with h | h
    · exact h h1
    · exact h h2
  rfl

theorem pyFloatMant_digits (l : List Char) (h0 : l ≠ [])
    (hd : ∀ c ∈ l, c.isDigit = true) :
    pyFloatMant l = some ((intOfDigits l : ℚ), []) := by
  have htw := takeWhile_all Char.isDigit l hd
  unfold pyFloatMant
  dsimp only
  rw [htw.1, htw.2]
  simp only [List.headD_nil, if_neg (show ¬(' ' = '.') from by decide)]
  rw [if_neg (by simp [List.isEmpty_iff, h0])]
  simp [intOfDigits]

theorem pyFloat_good (l : List Char) (hk : ∀ c ∈ l, keepDigitDot c = true)
    (hdot : l.count '.' ≤ 1) (hdig : l.any Char.isDigit = true) :
    pyFloat ⟨l⟩ = some (decVal l) := by
  have hstrip : pyStripL l = l := pyStripL_eq_self l (fun c hc => keep_not_space (hk c hc))
  have hdigc : ∀ c ∈ l, c ≠ '.' → c.isDigit = true := by
    intro c hc hne
    have := hk c hc
    unfold keepDigitDot at this
    simp only [Bool.or_eq_true, decide_eq_true_eq] at this
    rcases this with h | h
    · exact h
    · exact absurd h hne
  cases hr : l.dropWhile (fun c => decide (c ≠ '.')) with
  | nil =>
    have hl : l.takeWhile (fun c => decide (c ≠ '.')) = l := by
      have := List.takeWhile_append_dropWhile (p := fun c => decide (c ≠ '.')) (l := l)
      rw [hr] at this
      simpa using this
    have hall : ∀ c ∈ l, c.isDigit = true := by
      intro c hc
      have hmem : c ∈ l.takeWhile (fun c => decide (c ≠ '.')) := by rw [hl]; exact hc
      have hne := List.mem_takeWhile_imp hmem
      simp only [decide_eq_true_eq] at hne
      exact hdigc c hc hne
    obtain ⟨c0, cs, rfl⟩ : ∃ c0 cs, l = c0 :: cs := by
      cases l with
      | nil => simp at hdig
      | cons a b => exact ⟨a, b, rfl⟩
    have hfacts := digit_head_facts (hall c0 (by simp))
    unfold pyFloat
    dsimp only
    rw [hstrip]
    rw [pyFloatSign_no_sign _ (by rw [List.headD_cons]; exact hfacts.1)
      (by rw [List.headD_cons]; exact hfacts.2.1)]
    dsimp only
    rw [pyFloatMant_digits _ (by simp) hall]
    simp only [List.isEmpty_nil, if_pos rfl]
    unfold decVal fracLen
    rw [hr, List.filter_eq_self.mpr (fun a ha => hall a ha)]
    simp
  | cons c fp =>
    have hcdot : c = '.' := by
      have := dropWhile_head_false _ l c fp hr
      simpa using this
    subst hcdot
    have hl : l = l.takeWhile (fun c => decide (c ≠ '.')) ++ '.' :: fp := by
      have := List.takeWhile_append_dropWhile (p := fun c => decide (c ≠ '.')) (l := l)
      rw [hr] at this
      exact this.symm
    set ip := l.takeWhile (fun c => decide (c ≠ '.')) with hip
    have hipd : ∀ c ∈ ip, c.isDigit = true := by
      intro c hc
      have hne := List.mem_takeWhile_imp hc
      simp only [decide_eq_true_eq] at hne
      exact hdigc c (hl ▸ List.mem_append_left _ hc) hne
    have hfpd : ∀ c ∈ fp, c.isDigit = true := by
      have hcount : l.count '.' = ip.count '.' + 1 + fp.count '.' := by
        conv_lhs => rw [hl]
        simp [List.count_append, List.count_cons]
        ring
      have hip0 : ip.count '.' = 0 := by
        rw [List.count_eq_zero]
        intro hmem
        have := List.mem_takeWhile_imp hmem
        simp at this
      have hfp0 : fp.count '.' = 0 := by omega
      intro c hc
      apply hdigc c (hl ▸ List.mem_append_right _ (by simp [hc]))
      intro heq
      subst heq
      rw [List.count_eq_zero] at hfp0
      exact hfp0 hc
    have hne2 : ip ≠ [] ∨ fp ≠ [] := by
      rcases List.any_eq_true.mp hdig with ⟨c, hc, hcd⟩
      have hcne : c ≠ '.' := by intro h; subst h; exact absurd hcd (by decide)
      rw [hl] at hc
      rcases List.mem_append.mp hc with h | h
      · left; intro he; rw [he] at h; simp at h
      · rcases List.mem_cons.mp h with h | h
        · exact absurd h hcne
        · right; intro he; rw [he] at h; simp at h
    have hipne : ∀ c ∈ ip, decide (c ≠ '.') = true := by
      intro c hc
      have h2 := List.mem_takeWhile_imp hc
      exact h2
    have hdw : (ip ++ '.' :: fp).dropWhile (fun c => decide (c ≠ '.')) = '.' :: fp := by
      have h1 := takeWhile_all_append (fun c => decide (c ≠ '.')) ip ('.' :: fp) hipne
      rw [h1.2, List.dropWhile_cons, if_neg (by simp)]
    have hsign : pyFloatSign (ip ++ '.' :: fp) = (1, ip ++ '.' :: fp) := by
      cases hip2 : ip with
      | nil =>
        apply pyFloatSign_no_sign <;> simp
      | cons a as =>
        have hfacts := digit_head_facts (hipd a (by simp [hip2]))
        apply pyFloatSign_no_sign <;>
          simp only [List.cons_append, List.headD_cons, hfacts.1, hfacts.2.1]
    unfold pyFloat
    dsimp only
    rw [hstrip, hl, hsign]
    dsimp only
    rw [pyFloatMant_ip_fp ip fp hipd hfpd hne2]
    simp only [List.isEmpty_nil, if_pos rfl]
    unfold decVal fracLen
    rw [hdw]
    rw [List.filter_append]
    simp only [List.filter_cons, if_neg (show ¬(('.' : Char).isDigit = true) from by decide)]
    rw [List.filter_eq_self.mpr (fun a ha => hipd a ha),
      List.filter_eq_self.mpr (fun a ha => hfpd a ha)]
    rw [intOfDigits_append]
    push_cast
    have h10 : ((10 : ℚ) ^ fp.length) ≠ 0 := by positivity
    field_simp


theorem pyFloat_bad (l : List Char) (hk : ∀ c ∈ l, keepDigitDot c = true)
    (hne : l ≠ []) (hbad : ¬(l.count '.' ≤ 1 ∧ l.any Char.isDigit = true)) :
    pyFloat ⟨l⟩ = none := by
  have hstrip : pyStripL l = l := pyStripL_eq_self l (fun c hc => keep_not_space (hk c hc))
  have hdigc : ∀ c ∈ l, c ≠ '.' → c.isDigit = true := by
    intro c hc hne2
    have := hk c hc
    unfold keepDigitDot at this
    simp only [Bool.or_eq_true, decide_eq_true_eq] at this
    rcases this with h | h
    · exact h
    · exact absurd h hne2
  by_cases hdig : l.any Char.isDigit = true
  · -- there is a digit, so there must be at least two dots
    have hcnt : ¬(l.count '.' ≤ 1) := fun h => hbad ⟨h, hdig⟩
    -- decompose at the first dot
    cases hr : l.dropWhile (fun c => decide (c ≠ '.')) with
    | nil =>
      exfalso
      apply hcnt
      have : l.count '.' = 0 := by
        rw [List.count_eq_zero]
        intro hmem
        have hl : l.takeWhile (fun c => decide (c ≠ '.')) = l := by
          have := List.takeWhile_append_dropWhile (p := fun c => decide (c ≠ '.')) (l := l)
          rw [hr] at this
          simpa using this
        have hmem2 : ('.' : Char) ∈ l.takeWhile (fun c => decide (c ≠ '.')) := by
          rw [hl]; exact hmem
        have h2 := List.mem_takeWhile_imp hmem2
        simp at h2
      omega
    | cons c fp =>
      have hcdot : c = '.' := by
        have := dropWhile_head_false _ l c fp hr
        simpa using this
      subst hcdot
      have hl : l = l.takeWhile (fun c => decide (c ≠ '.')) ++ '.' :: fp := by
        have := List.takeWhile_append_dropWhile (p := fun c => decide (c ≠ '.')) (l := l)
        rw [hr] at this
        exact this.symm
      set ip := l.takeWhile (fun c => decide (c ≠ '.')) with hip
      have hipd : ∀ c ∈ ip, c.isDigit = true := by
        intro c hc
        have h2 := List.mem_takeWhile_imp hc
        simp only [decide_eq_true_eq] at h2
        exact hdigc c (hl ▸ List.mem_append_left _ hc) h2
      have hfpk : ∀ c ∈ fp, keepDigitDot c = true := by
        intro c hc
        exact hk c (hl ▸ List.mem_append_right _ (by simp [hc]))
      -- the second dot lives in fp
      have hfpdot : ('.' : Char) ∈ fp := by
        have hip0 : ip.count '.' = 0 := by
          rw [List.count_eq_zero]
          intro hmem
          have h2 := List.mem_takeWhile_imp hmem
          simp at h2
        have hcount : l.count '.' = ip.count '.' + 1 + fp.count '.' := by
          conv_lhs => rw [hl]
          simp [List.count_append, List.count_cons]
          ring
        have : 1 ≤ fp.count '.' := by omega
        exact List.count_pos_iff.mp (by omega)
      have htwip := takeWhile_all_append Char.isDigit ip ('.' :: fp) hipd
      have hsign : pyFloatSign (ip ++ '.' :: fp) = (1, ip ++ '.' :: fp) := by
        cases hip2 : ip with
        | nil =>
          apply pyFloatSign_no_sign <;> simp
        | cons a as =>
          have hfacts := digit_head_facts (hipd a (by simp [hip2]))
          apply pyFloatSign_no_sign <;>
            simp only [List.cons_append, List.headD_cons, hfacts.1, hfacts.2.1]
      -- the remainder after the mantissa starts with the second dot
      have hfp2 : ∃ g2 gs, fp.dropWhile Char.isDigit = g2 :: gs ∧ g2 = '.' := by
        cases hg : fp.dropWhile Char.isDigit with
        | nil =>
          exfalso
          have := List.dropWhile_eq_nil_iff.mp hg
          have hdot2 := this '.' hfpdot
          simp at hdot2
        | cons g2 gs =>
          refine ⟨g2, gs, rfl, ?_⟩
          have hnd := dropWhile_head_false _ fp g2 gs hg
          have hmem : g2 ∈ fp := by
            have hsub := List.dropWhile_sublist (l := fp) (p := Char.isDigit)
            exact hsub.subset (by rw [hg]; simp)
          have := hfpk g2 hmem
          unfold keepDigitDot at this
          simp only [Bool.or_eq_true, decide_eq_true_eq] at this
          rcases this with h | h
          · rw [h] at hnd; simp at hnd
          · exact h
      obtain ⟨g2, gs, hg, rfl⟩ := hfp2
      unfold pyFloat
      dsimp only
      rw [hstrip, hl, hsign]
      dsimp only
      unfold pyFloatMant
      dsimp only
      rw [htwip.1, htwip.2]
      have hdotd : ('.' : Char).isDigit = false := by decide
      simp only [List.takeWhile_cons, List.dropWhile_cons, hdotd, Bool.false_eq_true,
        if_false, ite_false, if_true, ite_true, List.append_nil, List.headD_cons,
        if_pos rfl, List.tail_cons]
      rw [hg]
      by_cases hemp : (ip.isEmpty && (fp.takeWhile Char.isDigit).isEmpty) = true
      · rw [if_pos hemp]
      · rw [if_neg hemp]
        dsimp only
        rw [if_neg (by simp), if_neg (by simp)]
  · -- no digit at all: the remainder is dots only
    have hall : ∀ c ∈ l, c = '.' := by
      intro c hc
      have := hk c hc
      unfold keepDigitDot at this
      simp only [Bool.or_eq_true, decide_eq_true_eq] at this
      rcases this with h | h
      · exfalso
        apply hdig
        rw [List.any_eq_true]
        exact ⟨c, hc, h⟩
      · exact h
    obtain ⟨c0, cs, rfl⟩ : ∃ c0 cs, l = c0 :: cs := by
      cases l with
      | nil => exact absurd rfl hne
      | cons a b => exact ⟨a, b, rfl⟩
    have hc0 : c0 = '.' := hall c0 (by simp)
    subst hc0
    have hnd : ∀ c ∈ '.' :: cs, Char.isDigit c = false := by
      intro c hc
      rw [hall c hc]
      decide
    have htw := takeWhile_none Char.isDigit ('.' :: cs) hnd
    have htwcs := takeWhile_none Char.isDigit cs
      (fun c hc => hnd c (by simp [hc]))
    unfold pyFloat
    dsimp only
    rw [hstrip]
    rw [pyFloatSign_no_sign _ (by simp) (by simp)]
    dsimp only
    unfold pyFloatMant
    dsimp only
    rw [htw.1, htw.2]
    simp only [List.headD_cons, if_pos rfl, List.tail_cons]
    rw [htwcs.1]
    rw [if_pos (by simp)]

theorem norm_float_good_str (r : String)
    (h1 : (r.data.filter keepDigitDot).count '.' ≤ 1)
    (h2 : (r.data.filter keepDigitDot).any Char.isDigit = true) :
    norm_float (some r) = .ok (some (decVal (r.data.filter keepDigitDot))) := by
  have hs : r.data.filter keepDigitDot ≠ [] := by
    intro h
    rw [h] at h2
    simp at h2
  unfold norm_float
  dsimp only
  rw [if_neg (by simp [List.isEmpty_iff, hs])]
  rw [pyFloat_good _ (fun c hc => (List.mem_filter.mp hc).2) h1 h2]


/-- C7 (counterexample): the claim says `norm_float` never raises, but
on the input `"."` the stripped remainder is `"."`, which Python
`float()` rejects — the function raises `ValueError` (modelled as
`.error ()`). -/
theorem C7_norm_float_raises_counterexample : norm_float (some ".") = .error () := by
  decide

/-- C7 (amended): `norm_float` removes every character except digits and
dots; it returns `none` when nothing remains; when the remainder has at
most one dot and at least one digit it returns the remainder's decimal
value (in particular `₹ 12,34,500.50` yields `1234500.5`); when the
remainder is non-empty but malformed (no digit, or two or more dots) it
raises `ValueError` instead of returning. -/
theorem C7_norm_float_amended :
    (∀ r : String, r.data.filter keepDigitDot = [] → norm_float (some r) = .ok none) ∧
    (∀ r : String, (r.data.filter keepDigitDot).count '.' ≤ 1 →
        (r.data.filter keepDigitDot).any Char.isDigit = true →
        norm_float (some r) = .ok (some (decVal (r.data.filter keepDigitDot)))) ∧
    (∀ r : String, r.data.filter keepDigitDot ≠ [] →
        ¬((r.data.filter keepDigitDot).count '.' ≤ 1 ∧
          (r.data.filter keepDigitDot).any Char.isDigit = true) →
        norm_float (some r) = .error ()) ∧
    norm_float (some "₹ 12,34,500.50") = .ok (some ((1234500.5 : ℚ))) ∧
    norm_float none = .ok none := by
  refine ⟨?_, fun r h1 h2 => norm_float_good_str r h1 h2, ?_, ?_, by decide⟩
  · intro r h
    unfold norm_float
    dsimp only
    rw [if_pos (by simp [h])]
  · intro r h1 h2
    unfold norm_float
    dsimp only
    rw [if_neg (by simp [List.isEmpty_iff, h1])]
    rw [pyFloat_bad _ (fun c hc => (List.mem_filter.mp hc).2) h1 h2]
  · have h := norm_float_good_str "₹ 12,34,500.50" (by decide) (by decide)
    rw [h]
    have hf : "₹ 12,34,500.50".data.filter keepDigitDot =
        ['1', '2', '3', '4', '5', '0', '0', '.', '5', '0'] := by decide
    rw [hf]
    have e1 : List.filter Char.isDigit ['1', '2', '3', '4', '5', '0', '0', '.', '5', '0'] =
        ['1', '2', '3', '4', '5', '0', '0', '5', '0'] := by decide
    have e2 : intOfDigits ['1', '2', '3', '4', '5', '0', '0', '5', '0'] = 123450050 := by
      decide
    have e3 : fracLen ['1', '2', '3', '4', '5', '0', '0', '.', '5', '0'] = 2 := by decide
    unfold decVal
    rw [e1, e2, e3]
    norm_num

/-- Witness for C7: the well-formed-remainder conjunct applied at the
concrete input `7.5`. -/
theorem C7_norm_float_amended_witness :
    norm_float (some "7.5") = .ok (some ((15 : ℚ) / 2)) := by
  have h := C7_norm_float_amended.2.1 "7.5" (by decide) (by decide)
  rw [h]
  have e1 : "7.5".data.filter keepDigitDot = ['7', '.', '5'] := by decide
  rw [e1]
  have e2 : List.filter Char.isDigit ['7', '.', '5'] = ['7', '5'] := by decide
  have e3 : intOfDigits ['7', '5'] = 75 := by decide
  have e4 : fracLen ['7', '.', '5'] = 1 := by decide
  unfold decVal
  rw [e2, e3, e4]
  norm_num

/-! ## Claim C1: the end-to-end account scenario -/

/-- C1 (counterexample): for a page sequence whose text is exactly the
block named by the claim, `parse_accounts` yields no account at all —
the block is never reached because the accounts-section pattern
requires the `ALL ACCOUNTS` marker, which the block lacks.  The claim's
predicted single open account is therefore false at this input. -/
theorem C1_exact_block_counterexample :
    parse_accounts
      ["Member Name\nABC Bank\nAccount Type\nCredit Card\nDate Closed\n-\nJan 2024 STD\nFeb 2024 30"] =
      .ok ([], []) := by
  decide

/-- C1 (amended): for a page whose text is the block preceded by the
`ALL ACCOUNTS` section marker, `parse_accounts` yields exactly one
account, in the open set, with member name `ABC Bank`, account type
`Credit Card`, and payment history
`[(2024-01, 0), (2024-02, 30)]`. -/
theorem C1_all_accounts_scenario :
    parse_accounts
      ["ALL ACCOUNTS\nMember Name\nABC Bank\nAccount Type\nCredit Card\nDate Closed\n-\nJan 2024 STD\nFeb 2024 30"] =
      .ok ([{ member_name := some "ABC Bank"
              account_type := some "Credit Card"
              ownership := none
              account_number_masked := none
              account_details :=
                { credit_limit := none, high_credit := none, sanctioned_amount := none
                  current_balance := none, cash_limit := none, amount_overdue := none
                  rate_of_interest := none, repayment_tenure := none, emi_amount := none
                  payment_frequency := none, date_opened := none, date_closed := none
                  date_last_payment := none, written_off_amount := some 0
                  settlement_amount := some 0, suit_filed_flag := false }
              payment_history := [{ month := "2024-01", dpd := some 0 },
                                  { month := "2024-02", dpd := some 30 }] }], []) := by
  decide

/-! ## Claim C6: empty page sequence -/

/-- C6 (counterexample): the claim says an empty page sequence is fatal
for the whole ingestion; in fact the parse pipeline does not fail on
zero pages — it completes without an exception. -/
theorem C6_empty_pages_counterexample : parse_cibil_pages [] ≠ .error () := by
  decide

/-- C6 (amended): an empty page sequence is not fatal: every section
parser guards against missing pages and the pipeline returns a
structured report whose fields are all null or empty — down to the
always-present placeholder PAN identification row and the fixed score
range. -/
theorem C6_empty_pages_structured :
    parse_cibil_pages [] = .ok
      { report_metadata :=
          { control_number := none, report_date := none, report_version := "1.0" }
        score_summary :=
          { cibil_score := none, score_date := none
            score_range_min := 300, score_range_max := 900 }
        personal_details := { full_name := none, date_of_birth := none, gender := none }
        identification_details :=
          [{ id_type := "PAN", id_number := none, issue_date := none, expiry_date := none }]
        address_details := []
        contact_details := { phone_numbers := [], emails := [] }
        employment_details :=
          { account_type := none, occupation := none, income := none
            income_type := none, net_gross := none }
        accounts := ([], [])
        enquiries := [] } := by
  decide

/-! ## Claim C9: account-number noise filtering -/

/-- Specification-side predicate: the string contains three or more
consecutive ASCII letters (of either case). -/
def hasLetterRun3 (v : String) : Prop :=
  ∃ (pre suf : List Char) (a b c : Char), v.data = pre ++ a :: b :: c :: suf ∧
    a.isAlpha = true ∧ b.isAlpha = true ∧ c.isAlpha = true

/-- Specification-side predicate: the string contains the word `w`
case-insensitively (some substring lower-cases to `w` lower-cased). -/
def containsWordCI (w v : String) : Prop :=
  ∃ pre mid suf, v.data = pre ++ mid ++ suf ∧
    mid.map lowerC = w.data.map lowerC

/-- The claim's own predicate: three or more consecutive lowercase
letters. -/
def hasLowerRun3 (v : String) : Prop :=
  ∃ (pre suf : List Char) (a b c : Char), v.data = pre ++ a :: b :: c :: suf ∧
    a.isLower = true ∧ b.isLower = true ∧ c.isLower = true

theorem searchFrom_isSome_iff (f : List Char → Option Unit) :
    ∀ l : List Char, (searchFrom f l).isSome = true ↔ ∃ n, (f (l.drop n)).isSome = true := by
  intro l
  induction l with
  | nil =>
    constructor
    · intro h; exact ⟨0, by simpa [searchFrom] using h⟩
    · rintro ⟨n, h⟩; simpa [searchFrom] using h
  | cons c cs ih =>
    unfold searchFrom
    cases hf : f (c :: cs) with
    | some r =>
      constructor
      · intro _; exact ⟨0, by simp [hf]⟩
      · intro _; simp
    | none =>
      simp only
      rw [ih]
      constructor
      · rintro ⟨m, h⟩; exact ⟨m + 1, by simpa using h⟩
      · rintro ⟨n, h⟩
        cases n with
        | zero => rw [List.drop_zero] at h; rw [hf] at h; simp at h
        | succ m => exact ⟨m, by simpa using h⟩

theorem dropLitCI_isSome_iff :
    ∀ (p l : List Char), (dropLitCI p l).isSome = true ↔
      p.length ≤ l.length ∧ (l.take p.length).map lowerC = p.map lowerC := by
  intro p
  induction p with
  | nil => intro l; simp [dropLitCI]
  | cons x xs ih =>
    intro l
    cases l with
    | nil => simp [dropLitCI]
    | cons c cs =>
      unfold dropLitCI
      by_cases hx : eqCI x c = true
      · rw [if_pos hx, ih cs]
        unfold eqCI at hx
        simp only [decide_eq_true_eq] at hx
        simp [List.take_succ_cons, hx, Nat.succ_le_succ_iff]
      · rw [if_neg hx]
        constructor
        · intro h; exact absurd h (by simp)
        · rintro ⟨hlen, hmap⟩
          exfalso
          apply hx
          rw [List.length_cons, List.take_succ_cons, List.map_cons, List.map_cons] at hmap
          injection hmap with h1 _
          unfold eqCI
          simpa using h1.symm

theorem grabExact3_some (cls : Char → Bool) (l run rest : List Char)
    (h : grabExact cls 3 l = some (run, rest)) :
    ∃ a b c, l = a :: b :: c :: rest ∧ run = [a, b, c] ∧
      cls a = true ∧ cls b = true ∧ cls c = true := by
  rcases l with _ | ⟨a, _ | ⟨b, _ | ⟨c, t⟩⟩⟩ <;> simp [grabExact] at h
  obtain ⟨ha, h2⟩ := h
  by_cases hb : cls b = true
  · rw [if_pos hb] at h2
    by_cases hc : cls c = true
    · rw [if_pos hc] at h2
      simp only [Option.some.injEq, Prod.mk.injEq] at h2
      obtain ⟨hrun, hrest⟩ := h2
      exact ⟨a, b, c, by rw [hrest], hrun.symm, ha, hb, hc⟩
    · rw [if_neg hc] at h2; simp at h2
  · rw [if_neg hb] at h2; simp at h2

theorem searchNoise_iff (v : String) :
    searchNoise v = true ↔ (hasLetterRun3 v ∨ containsWordCI "Ownership" v) := by
  have hmapiso : ∀ (o : Option (List Char)),
      (Option.map (fun _ => ()) o).isSome = o.isSome := by
    intro o; cases o <;> rfl
  unfold searchNoise
  rw [searchFrom_isSome_iff]
  constructor
  · rintro ⟨n, hn⟩
    revert hn
    cases hg : grabExact Char.isAlpha 3 (v.data.drop n) with
    | some pr =>
      intro _
      left
      obtain ⟨a, b, c, hl, _, ha, hb, hc⟩ := grabExact3_some _ _ _ _ (by rw [hg])
      refine ⟨v.data.take n, pr.2, a, b, c, ?_, ha, hb, hc⟩
      conv_lhs => rw [← List.take_append_drop n v.data]
      rw [hl]
    | none =>
      intro hn
      rw [hmapiso] at hn
      right
      rw [dropLitCI_isSome_iff] at hn
      obtain ⟨hlen, hmap⟩ := hn
      refine ⟨v.data.take n, (v.data.drop n).take 9, (v.data.drop n).drop 9, ?_, ?_⟩
      · rw [List.append_assoc, List.take_append_drop, List.take_append_drop]
      · exact hmap
  · rintro (⟨pre, suf, a, b, c, heq, ha, hb, hc⟩ | ⟨pre, mid, suf, heq, hmap⟩)
    · refine ⟨pre.length, ?_⟩
      rw [heq, List.drop_left]
      simp [grabExact, ha, hb, hc]
    · refine ⟨pre.length, ?_⟩
      rw [heq, List.append_assoc, List.drop_left]
      have hmidlen : mid.length = 9 := by
        have := congrArg List.length hmap
        simpa using this
      cases hg : grabExact Char.isAlpha 3 (mid ++ suf) with
      | some pr => simp [hg]
      | none =>
        simp only [hg]
        rw [hmapiso, dropLitCI_isSome_iff]
        constructor
        · simp [hmidlen]
        · rw [show (("Ownership".data : List Char)).length = 9 from by decide,
            ← hmidlen, List.take_left]
          exact hmap

/-- C9 (amended): an extracted account number is discarded (set to
null) exactly when it contains three or more consecutive letters of
either case — the `re.IGNORECASE` flag makes `[a-z]{3,}` match
uppercase runs as well — or the word `Ownership` in any casing; it is
retained unchanged otherwise. -/
theorem C9_account_number_amended (v : String) :
    (cleanAcctNum (some v) = none ↔ hasLetterRun3 v ∨ containsWordCI "Ownership" v) ∧
    (cleanAcctNum (some v) = none ∨ cleanAcctNum (some v) = some v) := by
  refine ⟨?_, ?_⟩
  · unfold cleanAcctNum
    dsimp only
    by_cases he : v = ""
    · subst he
      rw [if_neg (by simp)]
      have h1 : ¬ hasLetterRun3 "" := by
        rintro ⟨pre, suf, a, b, c, heq, -⟩
        have := congrArg List.length heq
        simp at this
        omega
      have h2 : ¬ containsWordCI "Ownership" "" := by
        rintro ⟨pre, mid, suf, heq, hm⟩
        have hl := congrArg List.length heq
        have hm2 := congrArg List.length hm
        simp at hl hm2
        omega
      simp [h1, h2]
    · rw [show (decide (v ≠ "") && searchNoise v) = searchNoise v from by simp [he]]
      cases hsn : searchNoise v with
      | true =>
        rw [if_pos rfl]
        simp only [true_iff]
        exact (searchNoise_iff v).mp hsn
      | false =>
        rw [if_neg (by simp)]
        constructor
        · intro h; simp at h
        · intro h
          have := (searchNoise_iff v).mpr h
          rw [hsn] at this
          simp at this
  · unfold cleanAcctNum
    dsimp only
    split
    · left; rfl
    · right; rfl

/-- C9 (counterexample): the account number `ABCD1234` extracted from
this chunk has no three consecutive lowercase letters and does not
contain the literal word `Ownership`, yet `parse_single_account`
discards it (the uppercase run `ABCD` matches the case-insensitive
noise pattern) — so the claim's "retained otherwise" is false here. -/
theorem C9_account_number_counterexample :
    (parse_single_account "Account Number\nABCD1234\nAccount Type\nLoan").map
        (fun r => r.account_number_masked) = .ok none ∧
    findLabelNL "Account Number" "Account Number\nABCD1234\nAccount Type\nLoan" =
      some "ABCD1234" ∧
    ¬ hasLowerRun3 "ABCD1234" ∧
    pyIn "Ownership" "ABCD1234" = false := by
  refine ⟨by decide, by decide, ?_, by decide⟩
  rintro ⟨pre, suf, a, b, c, heq, ha, -, -⟩
  have hmem : a ∈ "ABCD1234".data := by rw [heq]; simp
  have hm2 : a ∈ ['A', 'B', 'C', 'D', '1', '2', '3', '4'] := hmem
  simp only [List.mem_cons, List.not_mem_nil, or_false] at hm2
  rcases hm2 with rfl | rfl | rfl | rfl | rfl | rfl | rfl | rfl <;>
    exact absurd ha (by decide)

/-! ## Claims C3 and C10: the account-classification loop -/

theorem parse_single_account_fields (chunk : String) (r : AccountRecord)
    (h : parse_single_account chunk = .ok r) :
    r.member_name = findLabelNL "Member Name" chunk ∧
    r.account_number_masked = cleanAcctNum (findLabelNL "Account Number" chunk) ∧
    r.account_details.date_closed = norm_date (getField "Date Closed" chunk) := by
  unfold parse_single_account at h
  simp only [Bind.bind, Except.bind] at h
  iterate 12 (all_goals (try split at h))
  all_goals first
  | exact (Except.noConfusion h)
  | (injection h with h2; subst h2; exact ⟨rfl, rfl, rfl⟩)

theorem norm_date_ne_some_empty (o : Option String) : norm_date o ≠ some "" := by
  unfold norm_date
  rcases o with _ | r
  · simp
  · dsimp only
    split
    · simp
    · split
      next d m y =>
        intro hcon
        injection hcon with hcon
        have := congrArg (fun s => s.data.length) hcon
        simp only [String.data_append] at this
        simp at this
      · simp

theorem accLoop_shape : ∀ (chunks : List String) (o c : List AccountRecord),
    accLoop chunks = .ok (o, c) →
    ∃ l, extLoop chunks = .ok l ∧
      o = l.filter (fun a => !dateClosedTruthy a) ∧
      c = l.filter (fun a => dateClosedTruthy a) := by
  intro chunks
  induction chunks with
  | nil =>
    intro o c h
    simp only [accLoop] at h
    injection h with h
    injection h with h1 h2
    exact ⟨[], rfl, by simp [← h1], by simp [← h2]⟩
  | cons ch rest ih =>
    intro o c h
    by_cases hAT : pyIn "Account Type" ch = true
    · rw [show accLoop (ch :: rest) = _ from rfl] at h
      simp only [accLoop, hAT, if_true, Bind.bind, Except.bind] at h
      cases hp : parse_single_account ch with
      | error e => rw [hp] at h; simp at h
      | ok a =>
        rw [hp] at h
        cases hrec : accLoop rest with
        | error e => rw [hrec] at h; simp at h
        | ok pr =>
          rw [hrec] at h
          obtain ⟨o', c'⟩ := pr
          dsimp only at h
          obtain ⟨l, hel, ho', hc'⟩ := ih o' c' hrec
          cases hm : pyTruthyStr a.member_name with
          | false =>
            rw [hm] at h
            simp only [if_false, Bool.false_eq_true] at h
            injection h with h
            injection h with h1 h2
            refine ⟨l, ?_, by rw [← h1, ho'], by rw [← h2, hc']⟩
            simp only [extLoop, hAT, if_true, Bind.bind, Except.bind, hp, hel, hm]
            try simp
          | true =>
            rw [hm] at h
            simp only [if_true] at h
            have hext : extLoop (ch :: rest) = .ok (a :: l) := by
              simp only [extLoop, hAT, if_true, Bind.bind, Except.bind, hp, hel, hm]
              try simp
            cases hdc : dateClosedTruthy a with
            | true =>
              rw [hdc] at h
              simp only [if_true] at h
              injection h with h
              injection h with h1 h2
              refine ⟨a :: l, hext, ?_, ?_⟩
              · rw [← h1, ho']
                simp [List.filter_cons, hdc]
              · rw [← h2, hc']
                simp [List.filter_cons, hdc]
            | false =>
              rw [hdc] at h
              simp only [if_false, Bool.false_eq_true] at h
              injection h with h
              injection h with h1 h2
              refine ⟨a :: l, hext, ?_, ?_⟩
              · rw [← h1, ho']
                simp [List.filter_cons, hdc]
              · rw [← h2, hc']
                simp [List.filter_cons, hdc]
    · have hAT2 : pyIn "Account Type" ch = false := by
        cases hx : pyIn "Account Type" ch
        · rfl
        · exact absurd hx hAT
      simp only [accLoop, hAT2, Bool.false_eq_true, if_false] at h
      obtain ⟨l, hel, ho, hc⟩ := ih o c h
      refine ⟨l, ?_, ho, hc⟩
      simp only [extLoop, hAT2, Bool.false_eq_true, if_false]
      exact hel

theorem extLoop_provenance : ∀ (chunks : List String) (l : List AccountRecord),
    extLoop chunks = .ok l →
    ∀ a ∈ l, pyTruthyStr a.member_name = true ∧
      ∃ ch, parse_single_account ch = .ok a := by
  intro chunks
  induction chunks with
  | nil =>
    intro l h a ha
    simp only [extLoop] at h
    injection h with h
    rw [← h] at ha
    simp at ha
  | cons ch rest ih =>
    intro l h a ha
    by_cases hAT : pyIn "Account Type" ch = true
    · simp only [extLoop, hAT, if_true, Bind.bind, Except.bind] at h
      cases hp : parse_single_account ch with
      | error e => rw [hp] at h; simp at h
      | ok b =>
        rw [hp] at h
        cases hrec : extLoop rest with
        | error e => rw [hrec] at h; simp at h
        | ok l' =>
          rw [hrec] at h
          dsimp only at h
          cases hm : pyTruthyStr b.member_name with
          | false =>
            rw [hm] at h
            simp only [if_false, Bool.false_eq_true] at h
            injection h with h
            rw [← h] at ha
            exact ih l' hrec a ha
          | true =>
            rw [hm] at h
            simp only [if_true] at h
            injection h with h
            rw [← h] at ha
            rcases List.mem_cons.mp ha with rfl | ha2
            · exact ⟨hm, ch, hp⟩
            · exact ih l' hrec a ha2
    · have hAT2 : pyIn "Account Type" ch = false := by
        cases hx : pyIn "Account Type" ch
        · rfl
        · exact absurd hx hAT
      simp only [extLoop, hAT2, Bool.false_eq_true, if_false] at h
      exact ih l h a ha

def witRec : AccountRecord :=
  { member_name := some "X"
    account_type := some "Loan"
    ownership := none
    account_number_masked := none
    account_details :=
      { credit_limit := none, high_credit := none, sanctioned_amount := none
        current_balance := none, cash_limit := none, amount_overdue := none
        rate_of_interest := none, repayment_tenure := none, emi_amount := none
        payment_frequency := none, date_opened := none, date_closed := none
        date_last_payment := none, written_off_amount := some 0
        settlement_amount := some 0, suit_filed_flag := false }
    payment_history := [] }

def witRecNoMember : AccountRecord :=
  { witRec with member_name := none }

/-- C3: for every page sequence, `parse_accounts` splits the extracted
account records into the open and closed lists by the truthiness of
`date_closed`: every open record has `date_closed = none` (since
`norm_date` never yields `some ""`), every closed record has a non-null
non-empty `date_closed`, the two lists are the complementary filters of
the extracted list, and their concatenation is a permutation of it — no
record is duplicated or dropped. -/
theorem C3_open_closed_partition (pages : List String) (o c : List AccountRecord)
    (h : parse_accounts pages = .ok (o, c)) :
    (∀ a ∈ o, a.account_details.date_closed = none) ∧
    (∀ a ∈ c, ∃ s, a.account_details.date_closed = some s ∧ s ≠ "") ∧
    ∃ l, extractedAccounts pages = .ok l ∧
      o = l.filter (fun a => !dateClosedTruthy a) ∧
      c = l.filter (fun a => dateClosedTruthy a) ∧
      (o ++ c).Perm l := by
  obtain ⟨l, hel, ho, hc⟩ := accLoop_shape (accChunksOf pages) o c h
  have hprov := extLoop_provenance (accChunksOf pages) l hel
  refine ⟨?_, ?_, l, hel, ho, hc, ?_⟩
  · intro a ha
    rw [ho] at ha
    have hmem := List.mem_filter.mp ha
    have hdc : dateClosedTruthy a = false := by
      have := hmem.2
      simp at this
      exact this
    obtain ⟨-, ch, hch⟩ := hprov a hmem.1
    have hfield := (parse_single_account_fields ch a hch).2.2
    unfold dateClosedTruthy pyTruthyStr at hdc
    rcases hx : a.account_details.date_closed with _ | s
    · rfl
    · rw [hx] at hdc
      simp at hdc
      exfalso
      apply norm_date_ne_some_empty (getField "Date Closed" ch)
      rw [← hfield, hx, hdc]
  · intro a ha
    rw [hc] at ha
    have hmem := List.mem_filter.mp ha
    have hdc : dateClosedTruthy a = true := hmem.2
    unfold dateClosedTruthy pyTruthyStr at hdc
    rcases hx : a.account_details.date_closed with _ | s
    · rw [hx] at hdc; simp at hdc
    · rw [hx] at hdc
      simp at hdc
      exact ⟨s, rfl, hdc⟩
  · rw [ho, hc]
    have hperm := List.filter_append_perm (fun a => !dateClosedTruthy a) l
    have heq : l.filter (fun a => !(!dateClosedTruthy a)) =
        l.filter (fun a => dateClosedTruthy a) := by
      simp [Bool.not_not]
    rw [heq] at hperm
    exact hperm

/-- C3 witness: on the concrete page
`"ALL ACCOUNTS\nMember Name\nX\nAccount Type\nLoan"`, `parse_accounts`
puts the single extracted record in the open list, and the theorem
yields its null `date_closed`. -/
theorem C3_open_closed_partition_witness : witRec.account_details.date_closed = none := by
  have h := C3_open_closed_partition
    ["ALL ACCOUNTS\nMember Name\nX\nAccount Type\nLoan"] [witRec] []
    (by decide)
  exact h.1 witRec (by simp)

/-- C10: `parse_accounts` applies a member-name filter beyond the
`Account Type` heuristic: every record it returns (open or closed) has
`member_name = some s` with `s` non-empty, and a chunk containing
`Account Type` whose parsed record has a falsy `member_name` leaves the
loop's output unchanged — the chunk is silently discarded from both
lists. -/
theorem C10_member_name_filter :
    (∀ (pages : List String) (o c : List AccountRecord),
        parse_accounts pages = .ok (o, c) →
        ∀ a ∈ o ++ c, ∃ s, a.member_name = some s ∧ s ≠ "") ∧
    (∀ (ch : String) (rest : List String) (r : AccountRecord),
        pyIn "Account Type" ch = true →
        parse_single_account ch = .ok r →
        pyTruthyStr r.member_name = false →
        accLoop (ch :: rest) = accLoop rest) := by
  constructor
  · intro pages o c h a ha
    obtain ⟨l, hel, ho, hc⟩ := accLoop_shape (accChunksOf pages) o c h
    have hprov := extLoop_provenance (accChunksOf pages) l hel
    have hal : a ∈ l := by
      rcases List.mem_append.mp ha with h2 | h2
      · rw [ho] at h2; exact (List.mem_filter.mp h2).1
      · rw [hc] at h2; exact (List.mem_filter.mp h2).1
    obtain ⟨hm, -, -⟩ := hprov a hal
    unfold pyTruthyStr at hm
    rcases hx : a.member_name with _ | s
    · rw [hx] at hm; simp at hm
    · rw [hx] at hm
      simp at hm
      exact ⟨s, rfl, hm⟩
  · intro ch rest r hAT hp hm
    have : accLoop (ch :: rest) =
        match accLoop rest with
        | .error e => .error e
        | .ok pr => .ok pr := by
      simp only [accLoop, hAT, if_true, Bind.bind, Except.bind, hp, hm]
      cases accLoop rest with
      | error e => rfl
      | ok pr => simp
    rw [this]
    cases accLoop rest with
    | error e => rfl
    | ok pr => rfl

/-- C10 witness: the chunk `"Account Type\nLoan"` contains the
`Account Type` label, parses to a record with null `member_name`, and
is discarded — the loop's result on it equals the result on no chunks
at all. -/
theorem C10_member_name_filter_witness :
    accLoop ["Account Type\nLoan"] = accLoop [] := by
  have h := C10_member_name_filter.2 "Account Type\nLoan" [] witRecNoMember
    (by decide) (by decide) (by decide)
  exact h

/-! ## Claims C4 and C5: persistence upsert and cascade delete -/

theorem upsertMeta_frame (db : DB) (m : ReportMetadata) :
    (upsertMeta db m).1.score_summary = db.score_summary ∧
    (upsertMeta db m).1.personal_details = db.personal_details ∧
    (upsertMeta db m).1.identification_details = db.identification_details ∧
    (upsertMeta db m).1.address_details = db.address_details ∧
    (upsertMeta db m).1.contact_details = db.contact_details ∧
    (upsertMeta db m).1.employment_details = db.employment_details ∧
    (upsertMeta db m).1.accounts = db.accounts ∧
    (upsertMeta db m).1.payment_history = db.payment_history ∧
    (upsertMeta db m).1.enquiries = db.enquiries ∧
    (upsertMeta db m).1.nextAccountId = db.nextAccountId := by
  unfold upsertMeta
  iterate 2 (all_goals (try split))
  all_goals exact ⟨rfl, rfl, rfl, rfl, rfl, rfl, rfl, rfl, rfl, rfl⟩

theorem insertAccount_frame (rid io : Nat) (db : DB) (acc : AccountRecord) :
    (insertAccount rid io db acc).report_metadata = db.report_metadata ∧
    (insertAccount rid io db acc).score_summary = db.score_summary ∧
    (insertAccount rid io db acc).personal_details = db.personal_details ∧
    (insertAccount rid io db acc).identification_details = db.identification_details ∧
    (insertAccount rid io db acc).address_details = db.address_details ∧
    (insertAccount rid io db acc).contact_details = db.contact_details ∧
    (insertAccount rid io db acc).employment_details = db.employment_details ∧
    (insertAccount rid io db acc).enquiries = db.enquiries ∧
    (insertAccount rid io db acc).accounts.length = db.accounts.length + 1 ∧
    (insertAccount rid io db acc).payment_history.length
      = db.payment_history.length + acc.payment_history.length := by
  refine ⟨rfl, rfl, rfl, rfl, rfl, rfl, rfl, rfl, ?_, ?_⟩ <;>
    simp [insertAccount]

theorem foldl_insertAccount_frame (rid io : Nat) :
    ∀ (l : List AccountRecord) (db : DB),
    (l.foldl (insertAccount rid io) db).report_metadata = db.report_metadata ∧
    (l.foldl (insertAccount rid io) db).score_summary = db.score_summary ∧
    (l.foldl (insertAccount rid io) db).personal_details = db.personal_details ∧
    (l.foldl (insertAccount rid io) db).identification_details
      = db.identification_details ∧
    (l.foldl (insertAccount rid io) db).address_details = db.address_details ∧
    (l.foldl (insertAccount rid io) db).contact_details = db.contact_details ∧
    (l.foldl (insertAccount rid io) db).employment_details
      = db.employment_details ∧
    (l.foldl (insertAccount rid io) db).enquiries = db.enquiries ∧
    (l.foldl (insertAccount rid io) db).accounts.length
      = db.accounts.length + l.length ∧
    (l.foldl (insertAccount rid io) db).payment_history.length
      = db.payment_history.length
        + (l.map (fun a => a.payment_history.length)).sum := by
  intro l
  induction l with
  | nil => intro db; exact ⟨rfl, rfl, rfl, rfl, rfl, rfl, rfl, rfl, by simp, by simp⟩
  | cons a rest ih =>
    intro db
    have h1 := insertAccount_frame rid io db a
    have h2 := ih (insertAccount rid io db a)
    simp only [List.foldl_cons]
    obtain ⟨i1, i2, i3, i4, i5, i6, i7, i8, i9, i10⟩ := h1
    obtain ⟨j1, j2, j3, j4, j5, j6, j7, j8, j9, j10⟩ := h2
    refine ⟨by rw [j1, i1], by rw [j2, i2], by rw [j3, i3], by rw [j4, i4],
      by rw [j5, i5], by rw [j6, i6], by rw [j7, i7], by rw [j8, i8], ?_, ?_⟩
    · rw [j9, i9]; simp; omega
    · rw [j10, i10]; simp; omega

theorem save_to_db_frame (db : DB) (data : CibilReport) :
    (save_to_db db data).1.report_metadata
      = (upsertMeta db data.report_metadata).1.report_metadata ∧
    (save_to_db db data).2 = (upsertMeta db data.report_metadata).2 ∧
    (save_to_db db data).1.score_summary.length = db.score_summary.length + 1 ∧
    (save_to_db db data).1.personal_details.length
      = db.personal_details.length + 1 ∧
    (save_to_db db data).1.identification_details.length
      = db.identification_details.length + data.identification_details.length ∧
    (save_to_db db data).1.address_details.length
      = db.address_details.length + data.address_details.length ∧
    (save_to_db db data).1.contact_details.length
      = db.contact_details.length + 1 ∧
    (save_to_db db data).1.employment_details.length
      = db.employment_details.length + 1 ∧
    (save_to_db db data).1.accounts.length
      = db.accounts.length + (data.accounts.1.length + data.accounts.2.length) ∧
    (save_to_db db data).1.payment_history.length
      = db.payment_history.length
        + ((data.accounts.1.map (fun a => a.payment_history.length)).sum
           + (data.accounts.2.map (fun a => a.payment_history.length)).sum) ∧
    (save_to_db db data).1.enquiries.length
      = db.enquiries.length + data.enquiries.length := by
  obtain ⟨u1, u2, u3, u4, u5, u6, u7, u8, u9, u10⟩ :=
    upsertMeta_frame db data.report_metadata
  unfold save_to_db
  rcases hup : upsertMeta db data.report_metadata with ⟨db1, rid⟩
  rw [hup] at u1 u2 u3 u4 u5 u6 u7 u8 u9 u10
  dsimp only at u1 u2 u3 u4 u5 u6 u7 u8 u9 u10 ⊢
  have P0 : ∀ (io : Nat) (l : List AccountRecord) (mdb : DB),
      (l.foldl (insertAccount rid io) mdb).report_metadata = mdb.report_metadata :=
    fun io l mdb => (foldl_insertAccount_frame rid io l mdb).1
  have P1 : ∀ (io : Nat) (l : List AccountRecord) (mdb : DB),
      (l.foldl (insertAccount rid io) mdb).score_summary = mdb.score_summary :=
    fun io l mdb => (foldl_insertAccount_frame rid io l mdb).2.1
  have P2 : ∀ (io : Nat) (l : List AccountRecord) (mdb : DB),
      (l.foldl (insertAccount rid io) mdb).personal_details = mdb.personal_details :=
    fun io l mdb => (foldl_insertAccount_frame rid io l mdb).2.2.1
  have P3 : ∀ (io : Nat) (l : List AccountRecord) (mdb : DB),
      (l.foldl (insertAccount rid io) mdb).identification_details
        = mdb.identification_details :=
    fun io l mdb => (foldl_insertAccount_frame rid io l mdb).2.2.2.1
  have P4 : ∀ (io : Nat) (l : List AccountRecord) (mdb : DB),
      (l.foldl (insertAccount rid io) mdb).address_details = mdb.address_details :=
    fun io l mdb => (foldl_insertAccount_frame rid io l mdb).2.2.2.2.1
  have P5 : ∀ (io : Nat) (l : List AccountRecord) (mdb : DB),
      (l.foldl (insertAccount rid io) mdb).contact_details = mdb.contact_details :=
    fun io l mdb => (foldl_insertAccount_frame rid io l mdb).2.2.2.2.2.1
  have P6 : ∀ (io : Nat) (l : List AccountRecord) (mdb : DB),
      (l.foldl (insertAccount rid io) mdb).employment_details
        = mdb.employment_details :=
    fun io l mdb => (foldl_insertAccount_frame rid io l mdb).2.2.2.2.2.2.1
  have P7 : ∀ (io : Nat) (l : List AccountRecord) (mdb : DB),
      (l.foldl (insertAccount rid io) mdb).enquiries = mdb.enquiries :=
    fun io l mdb => (foldl_insertAccount_frame rid io l mdb).2.2.2.2.2.2.2.1
  have P8 : ∀ (io : Nat) (l : List AccountRecord) (mdb : DB),
      (l.foldl (insertAccount rid io) mdb).accounts.length
        = mdb.accounts.length + l.length :=
    fun io l mdb => (foldl_insertAccount_frame rid io l mdb).2.2.2.2.2.2.2.2.1
  have P9 : ∀ (io : Nat) (l : List AccountRecord) (mdb : DB),
      (l.foldl (insertAccount rid io) mdb).payment_history.length
        = mdb.payment_history.length
          + (l.map (fun a => a.payment_history.length)).sum :=
    fun io l mdb => (foldl_insertAccount_frame rid io l mdb).2.2.2.2.2.2.2.2.2
  refine ⟨?_, ?_, ?_, ?_, ?_, ?_, ?_, ?_, ?_, ?_, ?_⟩
  · simp only [P0]
  · rfl
  · simp only [P1]; try dsimp only
    rw [u1]; simp
  · simp only [P2]; try dsimp only
    rw [u2]; simp
  · simp only [P3]; try dsimp only
    rw [u3]; simp
  · simp only [P4]; try dsimp only
    rw [u4]; simp
  · simp only [P5]; try dsimp only
    rw [u5]; simp
  · simp only [P6]; try dsimp only
    rw [u6]; simp
  · simp only [P8]; try dsimp only
    rw [u7]; omega
  · simp only [P9]; try dsimp only
    rw [u8]; omega
  · simp only [P7]; try dsimp only
    rw [u9]; simp

theorem upsertMeta_miss (db : DB) (m : ReportMetadata) (c : String)
    (hc : m.control_number = some c)
    (hfind : db.report_metadata.find? (fun r => r.control_number = some c) = none) :
    (upsertMeta db m).1.report_metadata
      = db.report_metadata ++
        [{ id := db.nextReportId, control_number := some c
           report_date := m.report_date
           report_version := some m.report_version }] ∧
    (upsertMeta db m).2 = db.nextReportId := by
  unfold upsertMeta
  rw [hc]
  dsimp only
  rw [hfind]
  exact ⟨rfl, rfl⟩

theorem upsertMeta_hit (db : DB) (m : ReportMetadata) (row : MetaRow) (c : String)
    (hc : m.control_number = some c)
    (hdb : db.report_metadata = [row])
    (hrow : row.control_number = some c) :
    (upsertMeta db m).1.report_metadata
      = [{ row with report_date := m.report_date }] ∧
    (upsertMeta db m).2 = row.id := by
  unfold upsertMeta
  rw [hc]
  dsimp only
  rw [hdb]
  have hfind : List.find? (fun r => r.control_number = some c) [row] = some row := by
    simp [List.find?, hrow]
  rw [hfind]
  dsimp only
  refine ⟨?_, rfl⟩
  simp [hrow]

/-- C4: re-ingesting data with the same non-null control number upserts
the report row: the second `save_to_db` returns the same report id, the
metadata table keeps exactly one row for that control number, and every
child table (score_summary, personal_details, identification_details,
address_details, contact_details, employment_details, accounts,
payment_history, enquiries) doubles its row count — the second run
updates the metadata but freshly inserts all child rows. -/
theorem C4_reingest_same_id_doubles_children (data : CibilReport) (c : String)
    (h : data.report_metadata.control_number = some c) :
    (save_to_db (save_to_db initDB data).1 data).2 = (save_to_db initDB data).2 ∧
    ((save_to_db (save_to_db initDB data).1 data).1.report_metadata.filter
        (fun r => r.control_number = some c)).length = 1 ∧
    (save_to_db (save_to_db initDB data).1 data).1.score_summary.length
      = 2 * (save_to_db initDB data).1.score_summary.length ∧
    (save_to_db (save_to_db initDB data).1 data).1.personal_details.length
      = 2 * (save_to_db initDB data).1.personal_details.length ∧
    (save_to_db (save_to_db initDB data).1 data).1.identification_details.length
      = 2 * (save_to_db initDB data).1.identification_details.length ∧
    (save_to_db (save_to_db initDB data).1 data).1.address_details.length
      = 2 * (save_to_db initDB data).1.address_details.length ∧
    (save_to_db (save_to_db initDB data).1 data).1.contact_details.length
      = 2 * (save_to_db initDB data).1.contact_details.length ∧
    (save_to_db (save_to_db initDB data).1 data).1.employment_details.length
      = 2 * (save_to_db initDB data).1.employment_details.length ∧
    (save_to_db (save_to_db initDB data).1 data).1.accounts.length
      = 2 * (save_to_db initDB data).1.accounts.length ∧
    (save_to_db (save_to_db initDB data).1 data).1.payment_history.length
      = 2 * (save_to_db initDB data).1.payment_history.length ∧
    (save_to_db (save_to_db initDB data).1 data).1.enquiries.length
      = 2 * (save_to_db initDB data).1.enquiries.length := by
  obtain ⟨f1, f2, f3, f4, f5, f6, f7, f8, f9, f10, f11⟩ :=
    save_to_db_frame initDB data
  obtain ⟨m1, m2⟩ := upsertMeta_miss initDB data.report_metadata c h
    (show List.find? _ [] = none from rfl)
  have hm1 : (save_to_db initDB data).1.report_metadata
      = [{ id := 1, control_number := some c
           report_date := data.report_metadata.report_date
           report_version := some data.report_metadata.report_version }] := by
    rw [f1, m1]; rfl
  have hid1 : (save_to_db initDB data).2 = 1 := by rw [f2, m2]; rfl
  obtain ⟨g1, g2, g3, g4, g5, g6, g7, g8, g9, g10, g11⟩ :=
    save_to_db_frame (save_to_db initDB data).1 data
  obtain ⟨n1, n2⟩ := upsertMeta_hit (save_to_db initDB data).1 data.report_metadata
    { id := 1, control_number := some c
      report_date := data.report_metadata.report_date
      report_version := some data.report_metadata.report_version } c h hm1 rfl
  have z1 : initDB.score_summary.length = 0 := rfl
  have z2 : initDB.personal_details.length = 0 := rfl
  have z3 : initDB.identification_details.length = 0 := rfl
  have z4 : initDB.address_details.length = 0 := rfl
  have z5 : initDB.contact_details.length = 0 := rfl
  have z6 : initDB.employment_details.length = 0 := rfl
  have z7 : initDB.accounts.length = 0 := rfl
  have z8 : initDB.payment_history.length = 0 := rfl
  have z9 : initDB.enquiries.length = 0 := rfl
  refine ⟨?_, ?_, ?_, ?_, ?_, ?_, ?_, ?_, ?_, ?_, ?_⟩
  · rw [g2, n2, hid1]
  · rw [g1, n1]
    simp [List.filter]
  · omega
  · omega
  · omega
  · omega
  · omega
  · omega
  · omega
  · omega
  · omega

def witData : CibilReport :=
  { report_metadata :=
      { control_number := some "123", report_date := none, report_version := "1.0" }
    score_summary :=
      { cibil_score := none, score_date := none
        score_range_min := 300, score_range_max := 900 }
    personal_details := { full_name := none, date_of_birth := none, gender := none }
    identification_details := []
    address_details := []
    contact_details := { phone_numbers := [], emails := [] }
    employment_details :=
      { account_type := none, occupation := none, income := none
        income_type := none, net_gross := none }
    accounts := ([], [])
    enquiries := [] }

/-- C4 witness: saving the concrete report `witData` (control number
`123`) twice from the fresh database returns the same report id both
times and leaves one metadata row for that control number. -/
theorem C4_reingest_witness :
    (save_to_db (save_to_db initDB witData).1 witData).2
      = (save_to_db initDB witData).2 ∧
    ((save_to_db (save_to_db initDB witData).1 witData).1.report_metadata.filter
        (fun r => r.control_number = some "123")).length = 1 :=
  ⟨(C4_reingest_same_id_doubles_children witData "123" rfl).1, (C4_reingest_same_id_doubles_children witData "123" rfl).2.1⟩

/-- C5: a successful `delete_report` removes every row referencing the
report from all nine child tables (payment_history through the
report's accounts — the two-level cascade) and the metadata row itself,
keeps every row of other reports (the frame), and a subsequent
`get_report` lookup of the same identifier yields 404. -/
theorem C5_delete_cascade_and_frame :
    ∀ (db : DB) (rid : Nat) (db' : DB), delete_report db rid = .ok db' →
      (∀ r ∈ db'.report_metadata, r.id ≠ rid) ∧
      (∀ r ∈ db'.score_summary, r.report_id ≠ rid) ∧
      (∀ r ∈ db'.personal_details, r.report_id ≠ rid) ∧
      (∀ r ∈ db'.identification_details, r.report_id ≠ rid) ∧
      (∀ r ∈ db'.address_details, r.report_id ≠ rid) ∧
      (∀ r ∈ db'.contact_details, r.report_id ≠ rid) ∧
      (∀ r ∈ db'.employment_details, r.report_id ≠ rid) ∧
      (∀ r ∈ db'.accounts, r.report_id ≠ rid) ∧
      (∀ r ∈ db'.enquiries, r.report_id ≠ rid) ∧
      (∀ p ∈ db'.payment_history,
        p.account_id ∉
          (db.accounts.filter (fun a => a.report_id = rid)).map (fun a => a.id)) ∧
      (∀ r ∈ db.report_metadata, r.id ≠ rid → r ∈ db'.report_metadata) ∧
      (∀ r ∈ db.score_summary, r.report_id ≠ rid → r ∈ db'.score_summary) ∧
      (∀ r ∈ db.personal_details, r.report_id ≠ rid → r ∈ db'.personal_details) ∧
      (∀ r ∈ db.identification_details, r.report_id ≠ rid →
        r ∈ db'.identification_details) ∧
      (∀ r ∈ db.address_details, r.report_id ≠ rid → r ∈ db'.address_details) ∧
      (∀ r ∈ db.contact_details, r.report_id ≠ rid → r ∈ db'.contact_details) ∧
      (∀ r ∈ db.employment_details, r.report_id ≠ rid →
        r ∈ db'.employment_details) ∧
      (∀ r ∈ db.accounts, r.report_id ≠ rid → r ∈ db'.accounts) ∧
      (∀ r ∈ db.enquiries, r.report_id ≠ rid → r ∈ db'.enquiries) ∧
      (∀ p ∈ db.payment_history,
        p.account_id ∉
          (db.accounts.filter (fun a => a.report_id = rid)).map (fun a => a.id) →
        p ∈ db'.payment_history) ∧
      get_report_lookup db' rid = .error 404 := by
  intro db rid db' h
  unfold delete_report at h
  cases hf : db.report_metadata.find? (fun r => r.id = rid) with
  | none => rw [hf] at h; exact Except.noConfusion h
  | some row =>
    rw [hf] at h
    dsimp only at h
    injection h with h
    subst h
    refine ⟨?_, ?_, ?_, ?_, ?_, ?_, ?_, ?_, ?_, ?_, ?_, ?_, ?_, ?_, ?_, ?_, ?_,
      ?_, ?_, ?_, ?_⟩
    · intro r hr; simp [List.mem_filter] at hr; exact hr.2
    · intro r hr; simp [List.mem_filter] at hr; exact hr.2
    · intro r hr; simp [List.mem_filter] at hr; exact hr.2
    · intro r hr; simp [List.mem_filter] at hr; exact hr.2
    · intro r hr; simp [List.mem_filter] at hr; exact hr.2
    · intro r hr; simp [List.mem_filter] at hr; exact hr.2
    · intro r hr; simp [List.mem_filter] at hr; exact hr.2
    · intro r hr; simp [List.mem_filter] at hr; exact hr.2
    · intro r hr; simp [List.mem_filter] at hr; exact hr.2
    · intro p hp; simp [List.mem_filter] at hp; simpa using hp.2
    · intro r hr hne; exact List.mem_filter.mpr ⟨hr, by simp [hne]⟩
    · intro r hr hne; exact List.mem_filter.mpr ⟨hr, by simp [hne]⟩
    · intro r hr hne; exact List.mem_filter.mpr ⟨hr, by simp [hne]⟩
    · intro r hr hne; exact List.mem_filter.mpr ⟨hr, by simp [hne]⟩
    · intro r hr hne; exact List.mem_filter.mpr ⟨hr, by simp [hne]⟩
    · intro r hr hne; exact List.mem_filter.mpr ⟨hr, by simp [hne]⟩
    · intro r hr hne; exact List.mem_filter.mpr ⟨hr, by simp [hne]⟩
    · intro r hr hne; exact List.mem_filter.mpr ⟨hr, by simp [hne]⟩
    · intro r hr hne; exact List.mem_filter.mpr ⟨hr, by simp [hne]⟩
    · intro p hp hne; exact List.mem_filter.mpr ⟨hp, by simpa using hne⟩
    · have hnone : (db.report_metadata.filter
          (fun r => !(r.id = rid))).find? (fun r => r.id = rid) = none := by
        rw [List.find?_eq_none]
        intro x hx
        simp [List.mem_filter] at hx ⊢
        exact hx.2
      unfold get_report_lookup
      dsimp only
      rw [hnone]

def witAcct (i rid : Nat) : AccountRow :=
  { id := i, report_id := rid, is_open := 1
    member_name := none, account_type := none, ownership := none
    account_number_masked := none, credit_limit := none, high_credit := none
    sanctioned_amount := none, current_balance := none, cash_limit := none
    amount_overdue := none, rate_of_interest := none, repayment_tenure := none
    emi_amount := none, payment_frequency := none, date_opened := none
    date_closed := none, date_last_payment := none, written_off_amount := none
    settlement_amount := none, suit_filed_flag := 0 }

def witDB : DB :=
  { report_metadata :=
      [{ id := 1, control_number := none, report_date := none, report_version := none },
       { id := 2, control_number := none, report_date := none, report_version := none }]
    score_summary :=
      [{ report_id := 1, cibil_score := none, score_date := none
         score_range_min := 300, score_range_max := 900 },
       { report_id := 2, cibil_score := none, score_date := none
         score_range_min := 300, score_range_max := 900 }]
    personal_details := [], identification_details := [], address_details := []
    contact_details := [], employment_details := []
    accounts := [witAcct 1 1, witAcct 2 2]
    payment_history :=
      [{ account_id := 1, month := "2024-01", dpd := some 0 },
       { account_id := 2, month := "2024-01", dpd := some 0 }]
    enquiries := [], nextReportId := 3, nextAccountId := 3 }

def witDelDB : DB :=
  { report_metadata :=
      [{ id := 2, control_number := none, report_date := none, report_version := none }]
    score_summary :=
      [{ report_id := 2, cibil_score := none, score_date := none
         score_range_min := 300, score_range_max := 900 }]
    personal_details := [], identification_details := [], address_details := []
    contact_details := [], employment_details := []
    accounts := [witAcct 2 2]
    payment_history := [{ account_id := 2, month := "2024-01", dpd := some 0 }]
    enquiries := [], nextReportId := 3, nextAccountId := 3 }

/-- C5 witness: deleting report 1 from the concrete two-report database
`witDB` yields `witDelDB`, in which looking report 1 up returns 404. -/
theorem C5_delete_witness : get_report_lookup witDelDB 1 = .error 404 :=
  (C5_delete_cascade_and_frame witDB 1 witDelDB (by decide)).2.2.2.2.2.2.2.2.2.2.2.2.2.2.2.2.2.2.2.2
